import Mathlib

/-!
Verification development for the FireCrawl_Crawler repository.

The Python modules `firecrawl_crawler/sitemap.py`, `firecrawl_crawler/storage.py`
and `firecrawl_crawler/api.py` are shallowly embedded below.  Conventions:

* Python `datetime` values are kept as the strings that the code stores and
  parses; `datetime.fromisoformat` is a parameter `parseIso : String -> Option Int`
  (any behaviour of the library parser is an instance of it).
* The output directory is modelled as a flat association list from file name to
  file content.  Paths stored in the metadata are the plain file names, so the
  multi-location path resolution of `save_single_page` (absolute / relative to
  the output dir / relative to the cwd) collapses to a single existence check in
  that list.
* `datetime.now()` is modelled by a `clock : Nat` field that ticks on every save.
* OS-level write failures (`IOError`/`OSError`) are modelled by a list
  `failingPaths` of file names whose writes raise; a raised `StorageError` is an
  `Except.error`.  Because a caught exception leaves the mutated object behind,
  the save operations always return the (possibly partially updated) state next
  to the `Except` result.
* Wall-clock time in `wait_for_crawl` advances only at `time.sleep` calls;
  network calls are instantaneous.  The sequence of poll results is a function
  `polls : Nat -> PollResult`, consumed one element per `get_crawl_status` call.
  The outer polling loop is driven by a fuel argument; `WaitResult.fuelOut`
  marks a run that was cut short by fuel, never a behaviour of the code.
* `incremental_save` is `None` throughout (the claims under study are about the
  control flow of the poll loop, which does not depend on it).
-/

deriving instance DecidableEq for Except

namespace Firecrawl

/-- Python truthiness of an optional string: `None` and the empty string are falsy. -/
def truthyStr : Option String → Bool
  | none => false
  | some s => !(s == "")

/-- Python `a or b` for an optional string `a` with fallback `b`. -/
def pyOrStr (a : Option String) (b : String) : String :=
  match a with
  | none => b
  | some s => if s == "" then b else s

/-- Greedy left-to-right split of a character list on a non-empty separator, the
semantics shared by Python `str.split` and the splitting below.  One unit of fuel is
spent per examined character, so `length + 1` units always suffice. -/
def splitOnGo (sep : List Char) : Nat → List Char → List Char → List (List Char)
  | 0, _, acc => [acc.reverse]
  | f + 1, cs, acc =>
    match cs with
    | [] => [acc.reverse]
    | c :: rest =>
      if sep.isPrefixOf (c :: rest) then
        acc.reverse :: splitOnGo sep f (List.drop sep.length (c :: rest)) []
      else splitOnGo sep f rest (c :: acc)

/-- String split on a substring separator (an empty separator splits nothing). -/
def strSplitOn (s sub : String) : List String :=
  if sub == "" then [s]
  else (splitOnGo sub.data (s.data.length + 1) s.data []).map String.mk

/-- Suffix test on the underlying character lists. -/
def strEndsWith (s suffix : String) : Bool :=
  suffix.data.isSuffixOf s.data

/-- Python substring test `sub in s`. -/
def strContains (s sub : String) : Bool :=
  (strSplitOn s sub).length != 1

/-! ## sitemap.py -/

/-- One `<url>` element of a parsed sitemap, as produced by `SitemapParser.parse_sitemap`:
`lastmod`, `changefreq` and `priority` are `None` when the element is absent. -/
structure SitemapEntry where
  url : String
  lastmod : Option String
  changefreq : Option String
  priority : Option String
deriving DecidableEq, Repr

/-- One value of the metadata `pages` map: `{"file": ..., "scraped_at": ..., "file_size": ...}`.
`scraped_at` is optional because `get_updated_urls` reads it with `.get`. -/
structure ScrapeMeta where
  file : String
  scraped_at : Option String
  file_size : Nat
deriving DecidableEq, Repr

/-- Dictionary lookup `scraped_urls[url]` on an association list. -/
def lookupMeta (scraped_urls : List (String × ScrapeMeta)) (url : String) : Option ScrapeMeta :=
  (scraped_urls.find? (fun kv => kv.1 == url)).map (·.2)

/-- Python `lastmod.replace('Z', '+00:00')` (sitemap.py line 165): every occurrence of
the character `Z` is replaced by `+00:00`. -/
def replaceZ (s : String) : String :=
  String.mk (s.data.flatMap (fun c => if c == 'Z' then "+00:00".data else [c]))

/-- Decision taken by the loop body of `SitemapParser.get_updated_urls` for one sitemap
entry (sitemap.py lines 156-174): a previously unseen URL always needs updating; a known
URL needs updating when both timestamps are truthy and either one fails to parse or the
parsed `lastmod` is strictly newer than the parsed `scraped_at`. -/
def needsUpdate (parseIso : String → Option Int)
    (scraped_urls : List (String × ScrapeMeta)) (entry : SitemapEntry) : Bool :=
  match lookupMeta scraped_urls entry.url with
  | some scraped_info =>
    let scraped_at := scraped_info.scraped_at
    let lastmod := entry.lastmod
    if truthyStr scraped_at && truthyStr lastmod then
      match parseIso (scraped_at.getD ""),
            parseIso (replaceZ (lastmod.getD "")) with
      | some scraped_time, some modified_time => decide (modified_time > scraped_time)
      | _, _ => true
    else false
  | none => true

/-- `SitemapParser.get_updated_urls` (sitemap.py lines 131-176), with the sitemap fetch
already performed: iterate over the sitemap entries, skip those rejected by the path
filter (`if path_filter and path_filter not in url: continue`) and append the URLs that
need updating. -/
def get_updated_urls (parseIso : String → Option Int) (sitemap_urls : List SitemapEntry)
    (scraped_urls : List (String × ScrapeMeta)) (path_filter : Option String) : List String :=
  sitemap_urls.foldl
    (fun updated entry =>
      if truthyStr path_filter && !(strContains entry.url (path_filter.getD "")) then
        updated
      else if needsUpdate parseIso scraped_urls entry then
        updated ++ [entry.url]
      else updated)
    []

/-! ## storage.py -/

/-- A scraped page as handed to `MarkdownStorage.save_single_page`: the dictionary
`{"metadata": {"url": ..., "title": ...}, "markdown": ..., "url": ...}` with optional keys. -/
structure PageRecord where
  metaUrl : Option String
  title : Option String
  markdown : String
  topUrl : Option String
deriving DecidableEq, Repr

/-- URL extraction `data.get("metadata", {}).get("url") or data.get("url", "unknown")`. -/
def pageUrl (p : PageRecord) : String :=
  pyOrStr p.metaUrl (p.topUrl.getD "unknown")

/-- Characters replaced by `-` in `_sanitize_filename`. -/
def isInvalidFilenameChar (c : Char) : Bool :=
  c == '<' || c == '>' || c == ':' || c == '"' || c == '/' ||
  c == '\\' || c == '|' || c == '?' || c == '*'

/-- ASCII whitespace, the characters matched by the regex class `\s`. -/
def isPySpace (c : Char) : Bool :=
  c == ' ' || c == '\t' || c == '\n' || c == '\r' ||
  c == Char.ofNat 11 || c == Char.ofNat 12

/-- A dash or whitespace, the character class `[-\s]`. -/
def isDashOrSpace (c : Char) : Bool :=
  c == '-' || isPySpace c

/-- Replacement of every maximal run of `[-\s]` characters by a single dash, the effect
of `re.sub(r'[-\s]+', '-', text)`.  The boolean records whether the previous character
belonged to such a run. -/
def collapseGo : Bool → List Char → List Char
  | _, [] => []
  | prevDash, c :: rest =>
    if isDashOrSpace c then
      if prevDash then collapseGo true rest
      else '-' :: collapseGo true rest
    else c :: collapseGo false rest

/-- Characters stripped from both ends by `text.strip('. ')`. -/
def isDotOrSpace (c : Char) : Bool :=
  c == '.' || c == ' '

/-- `MarkdownStorage._sanitize_filename` (storage.py lines 117-135). -/
def sanitize_filename (text : String) : String :=
  let cs := text.data.map (fun c => if isInvalidFilenameChar c then '-' else c)
  let cs := (cs.dropWhile isDotOrSpace).reverse.dropWhile isDotOrSpace |>.reverse
  let cs := cs.take 200
  let cs := collapseGo false cs
  let r := String.mk cs
  if r == "" then "untitled" else r

/-- Split a URL into `(netloc, path)` in the manner of `urllib.parse.urlparse`, for
URLs of the shapes this crawler handles (query and fragment are not split off). -/
def urlNetlocPath (url : String) : String × String :=
  match strSplitOn url "://" with
  | [] => ("", url)
  | [_] => ("", url)
  | _ :: after :: restParts =>
    let afterAll := String.intercalate "://" (after :: restParts)
    match strSplitOn afterAll "/" with
    | [] => (afterAll, "")
    | netloc :: pathParts =>
      (netloc, if pathParts.isEmpty then "" else "/" ++ String.intercalate "/" pathParts)

/-- Appending the `.md` extension when missing (`_generate_filename`, end). -/
def ensureMd (s : String) : String :=
  if strEndsWith s ".md" then s else s ++ ".md"

/-- `MarkdownStorage._generate_filename` (storage.py lines 137-162). -/
def generate_filename (url : String) (title : Option String) : String :=
  let base_name :=
    if truthyStr title then sanitize_filename (title.getD "")
    else
      let (netloc, path) := urlNetlocPath url
      let path_parts := (strSplitOn path "/").filter (fun p => !(p == ""))
      match path_parts.getLast? with
      | some lastPart => sanitize_filename lastPart
      | none => sanitize_filename netloc
  ensureMd base_name

/-- Decomposition of a file name into `(stem, suffix)` in the manner of
`pathlib.Path.stem` / `.suffix` (a dot in first position does not start a suffix). -/
def splitExt (name : String) : String × String :=
  let cs := name.data
  let revAfter := cs.reverse.takeWhile (fun c => !(c == '.'))
  if revAfter.length == cs.length then (name, "")
  else
    let stemLen := cs.length - revAfter.length - 1
    if stemLen == 0 then (name, "")
    else (String.mk (cs.take stemLen), String.mk (cs.drop stemLen))

/-- Existence check `filepath.exists()` against the modelled output directory. -/
def fileExists (files : List (String × String)) (name : String) : Bool :=
  files.any (fun kv => kv.1 == name)

/-- Candidate name `f"{base}_{counter}{ext}"` tried by `_ensure_unique_filename`. -/
def numberedName (base ext : String) (counter : Nat) : String :=
  base ++ "_" ++ toString counter ++ ext

/-- The `while filepath.exists()` loop of `_ensure_unique_filename`, driven by fuel.
The loop always terminates on a real file system because only finitely many names
exist; the caller passes one more unit of fuel than there are files. -/
def ensureUniqueGo (files : List (String × String)) (base ext : String) :
    Nat → Nat → String
  | 0, counter => numberedName base ext counter
  | f + 1, counter =>
    let candidate := numberedName base ext counter
    if fileExists files candidate then ensureUniqueGo files base ext f (counter + 1)
    else candidate

/-- `MarkdownStorage._ensure_unique_filename` (storage.py lines 164-185). -/
def ensure_unique_filename (files : List (String × String)) (filepath : String) : String :=
  if !(fileExists files filepath) then filepath
  else
    let (base, ext) := splitExt filepath
    ensureUniqueGo files base ext (files.length + 1) 1

/-- Name of the metadata document kept by `MarkdownStorage`. -/
def metadataFilename : String := ".scrape_metadata.json"

/-- State of a `MarkdownStorage` instance plus the modelled file system.
`failingPaths` lists the file names whose writes raise `IOError`. -/
structure StorageState where
  files : List (String × String)
  pages : List (String × ScrapeMeta)
  last_crawl : Option String
  clock : Nat
  failingPaths : List String
deriving Repr

/-- A raised `StorageError`, carrying the offending path. -/
inductive StorageErr where
  | cannotWrite : String → StorageErr
deriving DecidableEq, Repr

/-- File write `filepath.write_text(content)`: overwrite in place when the name exists,
append a new file otherwise. -/
def writeFile (files : List (String × String)) (name content : String) :
    List (String × String) :=
  if fileExists files name then
    files.map (fun kv => if kv.1 == name then (kv.1, content) else kv)
  else files ++ [(name, content)]

/-- Dictionary lookup in the metadata `pages` map. -/
def lookupPage (pages : List (String × ScrapeMeta)) (url : String) : Option ScrapeMeta :=
  (pages.find? (fun kv => kv.1 == url)).map (·.2)

/-- Dictionary assignment `self.metadata["pages"][url] = meta`. -/
def setPage (pages : List (String × ScrapeMeta)) (url : String) (m : ScrapeMeta) :
    List (String × ScrapeMeta) :=
  if pages.any (fun kv => kv.1 == url) then
    pages.map (fun kv => if kv.1 == url then (kv.1, m) else kv)
  else pages ++ [(url, m)]

/-- The document written for a page: heading, source line, separator, body
(storage.py lines 266-269). -/
def pageContent (p : PageRecord) : String :=
  "# " ++ pyOrStr p.title "Untitled" ++ "\n\n" ++
  "**Source:** " ++ pageUrl p ++ "\n\n" ++
  "---\n\n" ++ p.markdown

/-- State after a fully successful `save_single_page` that chose `filepath`: the content
file is written and `_update_page_metadata` has recorded the CorpusEntry and bumped the
clock. -/
def savedState (st : StorageState) (data : PageRecord) (filepath : String) : StorageState :=
  { st with
      files := writeFile st.files filepath (pageContent data),
      pages := setPage st.pages (pageUrl data)
        { file := filepath, scraped_at := some (toString st.clock),
          file_size := (pageContent data).length },
      last_crawl := some (toString st.clock),
      clock := st.clock + 1 }

/-- `MarkdownStorage.save_single_page` (storage.py lines 187-284).  Returns the updated
state together with the saved path or the raised `StorageError`; on a metadata-write
failure the content file has already been written, exactly as in the source. -/
def save_single_page (st : StorageState) (data : PageRecord)
    (custom_filename : Option String) : StorageState × Except StorageErr String :=
  let url := pageUrl data
  let title := data.title
  let existing_file : Option String :=
    match lookupPage st.pages url with
    | some meta =>
      if !(meta.file == "") && fileExists st.files meta.file then some meta.file
      else none
    | none => none
  let filepath : String :=
    match existing_file with
    | some f => f
    | none =>
      let filename :=
        match custom_filename with
        | some cf => if strEndsWith cf ".md" then cf else cf ++ ".md"
        | none => generate_filename url title
      if fileExists st.files filename && (lookupPage st.pages url).isNone then
        ensure_unique_filename st.files filename
      else filename
  let content := pageContent data
  if filepath ∈ st.failingPaths then (st, .error (.cannotWrite filepath))
  else if metadataFilename ∈ st.failingPaths then
    ({ st with files := writeFile st.files filepath content },
     .error (.cannotWrite metadataFilename))
  else (savedState st data filepath, .ok filepath)

/-- One line of the index manifest. -/
structure IndexEntry where
  title : String
  url : String
  file : String
deriving DecidableEq, Repr

/-- Index entry collected for a successfully saved page (storage.py lines 312-319). -/
def indexEntryFor (page : PageRecord) (filepath : String) : IndexEntry :=
  { title := page.title.getD "Untitled",
    url := pyOrStr page.metaUrl (page.topUrl.getD ""),
    file := filepath }

/-- Rendering of the INDEX.md manifest (`_create_index_file`). -/
def indexContent (entries : List IndexEntry) : String :=
  "# Crawled Pages Index\n\n" ++
  "Total pages: " ++ toString entries.length ++ "\n\n" ++
  "---\n\n" ++
  entries.foldl
    (fun acc e =>
      acc ++ "## " ++ e.title ++ "\n\n" ++
      "- **URL:** " ++ e.url ++ "\n" ++
      "- **File:** [" ++ e.file ++ "](./" ++ e.file ++ ")\n\n")
    ""

/-- `MarkdownStorage._create_index_file` (storage.py lines 334-355); its write is not
wrapped in a try, so a failure propagates. -/
def create_index_file (st : StorageState) (entries : List IndexEntry) :
    Except StorageErr StorageState :=
  if "INDEX.md" ∈ st.failingPaths then .error (.cannotWrite "INDEX.md")
  else .ok { st with files := writeFile st.files "INDEX.md" (indexContent entries) }

/-- One iteration of the per-page loop of `save_multiple_pages` (storage.py lines
305-325): the page is saved under a try; a success appends the path and an index entry,
a raised error is logged and the loop moves on with the state the failed save left. -/
def batchStep (acc : StorageState × List String × List IndexEntry)
    (page : PageRecord) : StorageState × List String × List IndexEntry :=
  let (st, saved_files, index_entries) := acc
  match save_single_page st page none with
  | (st', .ok filepath) =>
    (st', saved_files ++ [filepath], index_entries ++ [indexEntryFor page filepath])
  | (st', .error _) => (st', saved_files, index_entries)

/-- The per-page loop of `save_multiple_pages`. -/
def runBatch (st : StorageState) (pages : List PageRecord) :
    StorageState × List String × List IndexEntry :=
  pages.foldl batchStep (st, [], [])

/-- `MarkdownStorage.save_multiple_pages` (storage.py lines 286-332). -/
def save_multiple_pages (st : StorageState) (pages : List PageRecord)
    (create_index : Bool) : StorageState × Except StorageErr (List String) :=
  let (st', saved_files, index_entries) := runBatch st pages
  if create_index && !index_entries.isEmpty then
    match create_index_file st' index_entries with
    | .ok st'' => (st'', .ok saved_files)
    | .error e => (st', .error e)
  else (st', .ok saved_files)

/-! ## api.py : scrape_url -/

/-- Outcome of one HTTP attempt inside `FirecrawlClient.scrape_url`, indexed by the
exception classes the code distinguishes. -/
inductive ScrapeAttemptOutcome where
  | success : String → ScrapeAttemptOutcome
  | httpError : Nat → ScrapeAttemptOutcome
  | connError : ScrapeAttemptOutcome
  | clientTimeout : ScrapeAttemptOutcome
  | requestError : ScrapeAttemptOutcome
deriving DecidableEq, Repr

/-- Terminal result of `scrape_url`: the scraped data or one of the raised
`FirecrawlAPIError` / `FirecrawlTimeoutError` / `FirecrawlConnectionError`. -/
inductive ScrapeResult where
  | ok : String → ScrapeResult
  | apiError : ScrapeResult
  | timeoutError : ScrapeResult
  | connectionError : ScrapeResult
deriving DecidableEq, Repr

/-- Observable trace of a `scrape_url` run: the number of attempts made, the per-attempt
client timeouts passed to `session.post`, and the inter-attempt delays slept. -/
structure ScrapeTrace where
  attemptsMade : Nat
  timeoutsUsed : List Nat
  delaysSlept : List Nat
deriving DecidableEq, Repr

/-- `timeouts = [120, 150, 180]` (api.py line 142). -/
def scrapeTimeouts : List Nat := [120, 150, 180]

/-- `retry_delays = [2, 5, 10]` (api.py line 141). -/
def scrapeRetryDelays : List Nat := [2, 5, 10]

/-- `max_retries = 3` (api.py line 140). -/
def scrapeMaxRetries : Nat := 3

/-- The `for attempt in range(max_retries)` loop of `scrape_url` (api.py lines 144-277).
`remaining` counts the loop iterations left (`scrapeMaxRetries - attempt`); an attempt
whose failure is retryable recurses when `attempt < max_retries - 1` and otherwise
raises.  A 408 HTTP response and a client-side timeout raise `FirecrawlTimeoutError`
after the final attempt; any other HTTP error raises `FirecrawlAPIError` at once. -/
def scrapeLoop (outcomes : Nat → ScrapeAttemptOutcome) :
    Nat → Nat → ScrapeTrace → ScrapeResult × ScrapeTrace
  | 0, _, tr => (.apiError, tr)
  | remaining + 1, attempt, tr =>
    let current_timeout := scrapeTimeouts.getD (min attempt (scrapeTimeouts.length - 1)) 0
    let tr := { tr with
      attemptsMade := tr.attemptsMade + 1,
      timeoutsUsed := tr.timeoutsUsed ++ [current_timeout] }
    let sleepThen (k : ScrapeTrace → ScrapeResult × ScrapeTrace) :
        ScrapeResult × ScrapeTrace :=
      k { tr with delaysSlept := tr.delaysSlept ++ [scrapeRetryDelays.getD attempt 0] }
    match outcomes attempt with
    | .success d => (.ok d, tr)
    | .httpError status_code =>
      if status_code == 408 then
        if attempt < scrapeMaxRetries - 1 then
          sleepThen (scrapeLoop outcomes remaining (attempt + 1))
        else (.timeoutError, tr)
      else (.apiError, tr)
    | .connError =>
      if attempt < scrapeMaxRetries - 1 then
        sleepThen (scrapeLoop outcomes remaining (attempt + 1))
      else (.connectionError, tr)
    | .clientTimeout =>
      if attempt < scrapeMaxRetries - 1 then
        sleepThen (scrapeLoop outcomes remaining (attempt + 1))
      else (.timeoutError, tr)
    | .requestError =>
      if attempt < scrapeMaxRetries - 1 then
        sleepThen (scrapeLoop outcomes remaining (attempt + 1))
      else (.apiError, tr)

/-- `FirecrawlClient.scrape_url` (api.py lines 106-280) as a function of the attempt
outcomes. -/
def scrape_url (outcomes : Nat → ScrapeAttemptOutcome) : ScrapeResult × ScrapeTrace :=
  scrapeLoop outcomes scrapeMaxRetries 0 { attemptsMade := 0, timeoutsUsed := [], delaysSlept := [] }

/-! ## api.py : wait_for_crawl -/

/-- The fields of a poll response that `wait_for_crawl` reads:
`status_data.get("status")`, `.get("data", [])` (pages stand for their URLs),
`.get("total", 0)` and `.get("error")`. -/
structure StatusData where
  status : String
  data : List String
  total : Nat
  error : Option String
deriving DecidableEq, Repr

/-- Result of one `get_crawl_status` call as seen by `wait_for_crawl`: either a status
payload or a raised `FirecrawlConnectionError` (the bounded retries inside
`get_crawl_status` are already folded into this outcome). -/
inductive PollResult where
  | connError : PollResult
  | ok : StatusData → PollResult
deriving DecidableEq, Repr

/-- Inputs of a `wait_for_crawl` run: the poll sequence, `max_wait_time`,
`poll_interval` and the job id (used in error messages). -/
structure WaitCfg where
  polls : Nat → PollResult
  maxWaitTime : Option Nat
  pollInterval : Nat
  jobId : String

/-- Mutable loop state of `wait_for_crawl`: the index of the next poll, the wall clock
(`time.time() - start_time`), the two counters, and the last successfully fetched
`status_data` (absent until the first successful poll). -/
structure WaitState where
  idx : Nat
  now : Nat
  completedWithoutDataCount : Nat
  consecutiveConnErrors : Nat
  lastStatusData : Option StatusData
deriving DecidableEq, Repr

/-- Terminal result of `wait_for_crawl`: a returned payload or one of the raised
exceptions.  `pyNameError` models the `NameError` Python would raise on reading
`status_data` when no poll ever succeeded; `fuelOut` marks fuel exhaustion of the
model, not a behaviour of the code. -/
inductive WaitResult where
  | success : StatusData → WaitResult
  | connErr : String → WaitResult
  | apiErr : String → WaitResult
  | timeoutErr : String → WaitResult
  | pyNameError : WaitResult
  | fuelOut : WaitResult
deriving DecidableEq, Repr

/-- `max_consecutive_connection_errors = 5` (api.py line 470). -/
def maxConsecutiveConnErrors : Nat := 5

/-- `max_completed_without_data = 3` (api.py line 468). -/
def maxCompletedWithoutData : Nat := 3

/-- Message of the `FirecrawlConnectionError` raised after five consecutive connection
errors (api.py lines 487-492). -/
def connGiveUpMessage (jobId : String) : String :=
  "Crawl job " ++ jobId ++ " failed due to persistent connection issues.\n" ++
  "  The job may still be running on the server.\n" ++
  "  You can check status later."

/-- Message of a `FirecrawlConnectionError` raised by `get_crawl_status` itself and not
caught (the calls inside the completed-but-empty sub-wait are outside the try block). -/
def statusConnMessage : String :=
  "Cannot connect to Firecrawl API after 3 attempts."

/-- The `while max_wait_time is None or time.time() - start_time < max_wait_time`
guard (api.py line 475). -/
def loopActive (cfg : WaitCfg) (now : Nat) : Bool :=
  match cfg.maxWaitTime with
  | none => true
  | some t => now < t

/-- Control transfer out of one piece of the loop body: return from the function,
continue the outer loop in a new state, or fuel exhaustion of the model. -/
inductive StepRes where
  | finished : WaitResult → StepRes
  | exited : WaitState → StepRes
  | noFuel : StepRes
deriving Repr

/-- The inner `while` of the completed-but-empty sub-wait (api.py lines 632-650): keep
polling while the outer deadline and the sub-wait cap both allow it; return as soon as
any data appears; on a status other than `completed`, reset the counter and break. -/
def subwaitLoop (cfg : WaitCfg) (dwStart maxDataWait : Nat) :
    Nat → WaitState → StepRes
  | 0, _ => .noFuel
  | f + 1, st =>
    if loopActive cfg st.now ∧ st.now - dwStart < maxDataWait then
      match cfg.polls st.idx with
      | .connError => .finished (.connErr statusConnMessage)
      | .ok sd =>
        let st' := { st with idx := st.idx + 1, lastStatusData := some sd }
        if sd.data ≠ [] then .finished (.success sd)
        else if sd.status ≠ "completed" then
          .exited { st' with completedWithoutDataCount := 0 }
        else
          subwaitLoop cfg dwStart maxDataWait f
            { st' with now := st'.now + cfg.pollInterval }
    else .exited st

/-- The sub-wait (api.py lines 624-659): the inner loop followed by the final status
check.  `pages_found` is always `False` when the loop ends (a non-empty `data` returns
immediately), so the final check runs both after a normal exit and after a break. -/
def subwait (cfg : WaitCfg) (dwStart maxDataWait fuel : Nat) (st : WaitState) : StepRes :=
  match subwaitLoop cfg dwStart maxDataWait fuel st with
  | .finished r => .finished r
  | .noFuel => .noFuel
  | .exited st' =>
    match cfg.polls st'.idx with
    | .connError => .finished (.connErr statusConnMessage)
    | .ok sd =>
      let st'' := { st' with idx := st'.idx + 1, lastStatusData := some sd }
      if sd.data ≠ [] then .finished (.success sd)
      else .exited st''

/-- Handling of one successfully polled status (api.py lines 504-713), entered with
the state already advanced past the poll.  `completed` with data returns; `completed`
without data bumps the counter, runs the sub-wait on its first occurrence, returns the
current payload once the counter reaches three, and otherwise sleeps and continues;
`failed` raises; every other status resets the counter, sleeps and continues. -/
def statusStep (cfg : WaitCfg) (st : WaitState) (sd : StatusData) : StepRes :=
  if sd.status = "completed" then
    if sd.data ≠ [] then .finished (.success sd)
    else
      let st1 := { st with completedWithoutDataCount := st.completedWithoutDataCount + 1 }
      let afterSub : StepRes :=
        if st1.completedWithoutDataCount = 1 then
          let maxDataWait : Nat :=
            match cfg.maxWaitTime with
            | none => 60
            | some t => min 60 (t - st1.now)
          subwait cfg st1.now maxDataWait (maxDataWait + 1) st1
        else .exited st1
      match afterSub with
      | .finished r => .finished r
      | .noFuel => .noFuel
      | .exited st2 =>
        if st2.completedWithoutDataCount ≥ maxCompletedWithoutData then
          .finished (.success (st2.lastStatusData.getD sd))
        else .exited { st2 with now := st2.now + cfg.pollInterval }
  else if sd.status = "failed" then
    .finished (.apiErr ("Crawl job " ++ cfg.jobId ++ " failed: " ++ (sd.error.getD "Unknown error")))
  else .exited { st with completedWithoutDataCount := 0, now := st.now + cfg.pollInterval }

/-- Code after the outer loop (api.py lines 716-728): a finite `max_wait_time` raises
`FirecrawlTimeoutError` naming the last observed status; with no timeout configured
this point is unreachable and the code would raise `FirecrawlAPIError`. -/
def waitExit (cfg : WaitCfg) (st : WaitState) : WaitResult :=
  match cfg.maxWaitTime with
  | some _ =>
    match st.lastStatusData with
    | some sd => .timeoutErr sd.status
    | none => .pyNameError
  | none =>
    match st.lastStatusData with
    | some sd =>
      .apiErr ("Crawl job " ++ cfg.jobId ++ " wait loop exited unexpectedly. Last status: " ++ sd.status)
    | none => .pyNameError

/-- `FirecrawlClient.wait_for_crawl` (api.py lines 442-728) with `incremental_save =
None`, driven by fuel for the outer loop.  A connection error below the bound of five
sleeps twice the poll interval and retries; at the bound it gives up; a successful poll
resets the error counter and is handled by `statusStep`. -/
def wait_for_crawl (cfg : WaitCfg) : Nat → WaitState → WaitResult
  | 0, st => if loopActive cfg st.now then .fuelOut else waitExit cfg st
  | fuel + 1, st =>
    if loopActive cfg st.now then
      match cfg.polls st.idx with
      | .connError =>
        let cce := st.consecutiveConnErrors + 1
        if cce ≥ maxConsecutiveConnErrors then .connErr (connGiveUpMessage cfg.jobId)
        else
          wait_for_crawl cfg fuel
            { st with idx := st.idx + 1, now := st.now + 2 * cfg.pollInterval,
                      consecutiveConnErrors := cce }
      | .ok sd =>
        let st' := { st with idx := st.idx + 1, consecutiveConnErrors := 0,
                             lastStatusData := some sd }
        match statusStep cfg st' sd with
        | .finished r => r
        | .noFuel => .fuelOut
        | .exited st'' => wait_for_crawl cfg fuel st''
    else waitExit cfg st

/-- State at loop entry: no polls made, clock at zero, both counters zero. -/
def initWaitState : WaitState :=
  { idx := 0, now := 0, completedWithoutDataCount := 0,
    consecutiveConnErrors := 0, lastStatusData := none }

/-! ## Concrete fixtures used by witnesses -/

/-- A metadata entry scraped at the given timestamp string. -/
def exMeta (t : String) : ScrapeMeta :=
  { file := "x.md", scraped_at := some t, file_size := 1 }

/-- A sitemap entry with the given URL and `lastmod`. -/
def exEntry (u : String) (lm : Option String) : SitemapEntry :=
  { url := u, lastmod := lm, changefreq := none, priority := none }

/-- A page record whose URL is carried in the metadata dictionary. -/
def exPage (u : String) (t : Option String) (body : String) : PageRecord :=
  { metaUrl := some u, title := t, markdown := body, topUrl := none }

/-- A fresh storage directory with no files, no metadata and no failing paths. -/
def emptyStorage : StorageState :=
  { files := [], pages := [], last_crawl := none, clock := 0, failingPaths := [] }

/-- A concrete timestamp parser used by witnesses (any behaviour of
`datetime.fromisoformat` is one instance of the `parseIso` parameter). -/
def exParse : String → Option Int := fun s =>
  if s == "99" then some 99
  else if s == "100" then some 100
  else if s == "101" then some 101
  else none

/-- A completed status payload with no data. -/
def sdCompletedEmpty : StatusData :=
  { status := "completed", data := [], total := 0, error := none }

/-- A completed status payload with one page. -/
def sdCompletedOne : StatusData :=
  { status := "completed", data := ["https://e.com/p"], total := 1, error := none }

/-- A scraping status payload with no data. -/
def sdScraping : StatusData :=
  { status := "scraping", data := [], total := 0, error := none }

/-! ## Helpers for the decimal-representation argument -/

/-- Numeric value of a decimal digit character. -/
def digitVal (c : Char) : Nat := c.toNat - '0'.toNat

/-- Value of a decimal digit string read left to right on top of an accumulator. -/
def vfold (ds : List Char) (a : Nat) : Nat :=
  ds.foldl (fun acc c => 10 * acc + digitVal c) a

end Firecrawl

namespace Firecrawl

/-! ## Helper lemmas: sitemap planner -/

/-- Per-entry acceptance test of `get_updated_urls`: the negated path-filter skip
combined with `needsUpdate`. -/
def plannerAccepts (parseIso : String → Option Int)
    (scraped_urls : List (String × ScrapeMeta)) (path_filter : Option String)
    (entry : SitemapEntry) : Bool :=
  !(truthyStr path_filter && !(strContains entry.url (path_filter.getD ""))) &&
    needsUpdate parseIso scraped_urls entry

theorem get_updated_urls_foldl_acc (parseIso : String → Option Int)
    (scraped_urls : List (String × ScrapeMeta)) (path_filter : Option String) :
    ∀ (l : List SitemapEntry) (acc : List String),
      l.foldl
        (fun updated entry =>
          if truthyStr path_filter && !(strContains entry.url (path_filter.getD "")) then
            updated
          else if needsUpdate parseIso scraped_urls entry then
            updated ++ [entry.url]
          else updated)
        acc
      = acc ++ (l.filter (plannerAccepts parseIso scraped_urls path_filter)).map (·.url) := by
  intro l
  induction l with
  | nil => intro acc; simp
  | cons e l ih =>
    intro acc
    rw [List.foldl_cons, ih]
    by_cases hskip : (truthyStr path_filter &&
        !(strContains e.url (path_filter.getD ""))) = true
    · simp [List.filter_cons, hskip, plannerAccepts]
    · by_cases hneed : needsUpdate parseIso scraped_urls e = true
      · simp [List.filter_cons, hskip, hneed, plannerAccepts]
      · simp [List.filter_cons, hskip, hneed, plannerAccepts]

theorem get_updated_urls_eq_filter (parseIso : String → Option Int)
    (sitemap_urls : List SitemapEntry) (scraped_urls : List (String × ScrapeMeta))
    (path_filter : Option String) :
    get_updated_urls parseIso sitemap_urls scraped_urls path_filter
      = (sitemap_urls.filter (plannerAccepts parseIso scraped_urls path_filter)).map (·.url) := by
  unfold get_updated_urls
  simpa using get_updated_urls_foldl_acc parseIso scraped_urls path_filter sitemap_urls []

theorem mem_get_updated_urls_of_nodup (parseIso : String → Option Int)
    (sitemap_urls : List SitemapEntry) (scraped_urls : List (String × ScrapeMeta))
    (path_filter : Option String) (e : SitemapEntry)
    (he : e ∈ sitemap_urls)
    (hnd : (sitemap_urls.map SitemapEntry.url).Nodup) :
    e.url ∈ get_updated_urls parseIso sitemap_urls scraped_urls path_filter
      ↔ plannerAccepts parseIso scraped_urls path_filter e = true := by
  rw [get_updated_urls_eq_filter]
  constructor
  · intro hmem
    rcases List.mem_map.mp hmem with ⟨e', he', hurl⟩
    rcases List.mem_filter.mp he' with ⟨he'mem, hacc⟩
    have : e' = e := List.inj_on_of_nodup_map hnd he'mem he hurl
    rwa [this] at hacc
  · intro hacc
    exact List.mem_map.mpr ⟨e, List.mem_filter.mpr ⟨he, hacc⟩, rfl⟩

theorem plannerAccepts_none (parseIso : String → Option Int)
    (scraped_urls : List (String × ScrapeMeta)) (e : SitemapEntry) :
    plannerAccepts parseIso scraped_urls none e = needsUpdate parseIso scraped_urls e := by
  simp [plannerAccepts, truthyStr]

theorem needsUpdate_true_iff (parseIso : String → Option Int)
    (scraped_urls : List (String × ScrapeMeta)) (e : SitemapEntry)
    (hlm : e.lastmod ≠ some "")
    (hsa : ∀ info, lookupMeta scraped_urls e.url = some info → info.scraped_at ≠ some "") :
    needsUpdate parseIso scraped_urls e = true ↔
      lookupMeta scraped_urls e.url = none ∨
      ∃ info, lookupMeta scraped_urls e.url = some info ∧
        ((∃ sa lm st mt, info.scraped_at = some sa ∧ e.lastmod = some lm ∧
            parseIso sa = some st ∧ parseIso (replaceZ lm) = some mt ∧
            st < mt) ∨
         (∃ sa lm, info.scraped_at = some sa ∧ e.lastmod = some lm ∧
            (parseIso sa = none ∨ parseIso (replaceZ lm) = none))) := by
  cases hl : lookupMeta scraped_urls e.url with
  | none => simp [needsUpdate, hl]
  | some info =>
    have hsa' : info.scraped_at ≠ some "" := hsa info hl
    cases hsainfo : info.scraped_at with
    | none => simp [needsUpdate, hl, hsainfo, truthyStr]
    | some sa =>
      have hsane : sa ≠ "" := fun h => hsa' (by rw [hsainfo, h])
      have hsab : (sa == "") = false := beq_eq_false_iff_ne.mpr hsane
      cases hlme : e.lastmod with
      | none => simp [needsUpdate, hl, hsainfo, hlme, truthyStr]
      | some lm =>
        have hlmne : lm ≠ "" := fun h => hlm (by rw [hlme, h])
        have hlmb : (lm == "") = false := beq_eq_false_iff_ne.mpr hlmne
        cases hp1 : parseIso sa with
        | none => simp [needsUpdate, hl, hsainfo, hlme, truthyStr, hsab, hlmb, hp1]
        | some st =>
          cases hp2 : parseIso (replaceZ lm) with
          | none => simp [needsUpdate, hl, hsainfo, hlme, truthyStr, hsab, hlmb, hp1, hp2]
          | some mt =>
            simp only [needsUpdate, hl, hsainfo, hlme, truthyStr, hsab, hlmb, hp1, hp2,
              Option.getD_some, Bool.not_false, Bool.and_self, if_true, gt_iff_lt,
              decide_eq_true_eq]
            constructor
            · intro hlt
              exact Or.inr ⟨info, rfl, Or.inl ⟨sa, lm, st, mt, hsainfo, rfl, hp1, hp2, hlt⟩⟩
            · rintro (h | ⟨info', hinfo', h⟩)
              · exact absurd h (by simp)
              · obtain rfl : info = info' := Option.some_injective _ hinfo'
                rcases h with ⟨sa', lm', st', mt', h1, h2, h3, h4, h5⟩ |
                    ⟨sa', lm', h1, h2, h3⟩
                · rw [hsainfo] at h1
                  obtain rfl : sa' = sa := Option.some_injective _ h1.symm
                  obtain rfl : lm' = lm := Option.some_injective _ h2.symm
                  rw [hp1] at h3
                  rw [hp2] at h4
                  obtain rfl : st' = st := Option.some_injective _ h3.symm
                  obtain rfl : mt' = mt := Option.some_injective _ h4.symm
                  exact h5
                · rw [hsainfo] at h1
                  obtain rfl : sa' = sa := Option.some_injective _ h1.symm
                  obtain rfl : lm' = lm := Option.some_injective _ h2.symm
                  rcases h3 with h3 | h3
                  · rw [hp1] at h3; exact Option.noConfusion h3
                  · rw [hp2] at h3; exact Option.noConfusion h3

/-- C4: with no path filter, the update planner includes a sitemap URL (appearing once
in the sitemap, with no degenerate empty-string timestamps) if and only if the URL is
absent from the stored pages map, or its sitemap lastmod parses strictly newer than the
recorded scraped_at, or both timestamps are present and either one fails to parse. -/
theorem c4_update_planner_iff (parseIso : String → Option Int)
    (sitemap_urls : List SitemapEntry) (scraped_urls : List (String × ScrapeMeta))
    (e : SitemapEntry) (he : e ∈ sitemap_urls)
    (hnd : (sitemap_urls.map SitemapEntry.url).Nodup)
    (hlm : e.lastmod ≠ some "")
    (hsa : ∀ info, lookupMeta scraped_urls e.url = some info → info.scraped_at ≠ some "") :
    e.url ∈ get_updated_urls parseIso sitemap_urls scraped_urls none ↔
      lookupMeta scraped_urls e.url = none ∨
      ∃ info, lookupMeta scraped_urls e.url = some info ∧
        ((∃ sa lm st mt, info.scraped_at = some sa ∧ e.lastmod = some lm ∧
            parseIso sa = some st ∧ parseIso (replaceZ lm) = some mt ∧
            st < mt) ∨
         (∃ sa lm, info.scraped_at = some sa ∧ e.lastmod = some lm ∧
            (parseIso sa = none ∨ parseIso (replaceZ lm) = none))) := by
  rw [mem_get_updated_urls_of_nodup parseIso sitemap_urls scraped_urls none e he hnd,
    plannerAccepts_none]
  exact needsUpdate_true_iff parseIso scraped_urls e hlm hsa

theorem c4_update_planner_iff_witness :
    ("u" : String) ∈ get_updated_urls exParse
      [exEntry "u" (some "101")] [("u", exMeta "100")] none := by
  have h := c4_update_planner_iff exParse
    [exEntry "u" (some "101")] [("u", exMeta "100")] (exEntry "u" (some "101"))
    (List.mem_singleton.mpr rfl) (by decide) (by decide)
    (by intro info hinfo
        rw [show lookupMeta [("u", exMeta "100")] (exEntry "u" (some "101")).url
              = some (exMeta "100") from rfl] at hinfo
        cases Option.some_injective _ hinfo.symm
        decide)
  exact h.mpr (Or.inr ⟨exMeta "100", rfl,
    Or.inl ⟨"100", "101", 100, 101, rfl, rfl, by decide, by decide, by decide⟩⟩)

/-- C10: for a sitemap entry whose URL is already stored, an absent lastmod excludes
the URL from the update plan, while a present-but-unparseable timestamp pair includes
it — the fail-open rule needs both timestamps to be present. -/
theorem c10_absent_lastmod_excluded :
    (∀ (parseIso : String → Option Int) (sitemap_urls : List SitemapEntry)
       (scraped_urls : List (String × ScrapeMeta)) (e : SitemapEntry)
       (info : ScrapeMeta),
       e ∈ sitemap_urls → (sitemap_urls.map SitemapEntry.url).Nodup →
       lookupMeta scraped_urls e.url = some info → e.lastmod = none →
       e.url ∉ get_updated_urls parseIso sitemap_urls scraped_urls none)
    ∧ (∀ (parseIso : String → Option Int) (sitemap_urls : List SitemapEntry)
       (scraped_urls : List (String × ScrapeMeta)) (e : SitemapEntry)
       (info : ScrapeMeta) (sa lm : String),
       e ∈ sitemap_urls → (sitemap_urls.map SitemapEntry.url).Nodup →
       lookupMeta scraped_urls e.url = some info →
       info.scraped_at = some sa → sa ≠ "" →
       e.lastmod = some lm → lm ≠ "" →
       parseIso sa = none ∨ parseIso (replaceZ lm) = none →
       e.url ∈ get_updated_urls parseIso sitemap_urls scraped_urls none) := by
  constructor
  · intro parseIso sitemap_urls scraped_urls e info he hnd hl hlme
    rw [mem_get_updated_urls_of_nodup parseIso sitemap_urls scraped_urls none e he hnd,
      plannerAccepts_none]
    simp [needsUpdate, hl, hlme, truthyStr]
  · intro parseIso sitemap_urls scraped_urls e info sa lm he hnd hl hsainfo hsane
      hlme hlmne hfail
    rw [mem_get_updated_urls_of_nodup parseIso sitemap_urls scraped_urls none e he hnd,
      plannerAccepts_none]
    have hsab : (sa == "") = false := beq_eq_false_iff_ne.mpr hsane
    have hlmb : (lm == "") = false := beq_eq_false_iff_ne.mpr hlmne
    rcases hfail with hp1 | hp2
    · simp [needsUpdate, hl, hsainfo, hlme, truthyStr, hsab, hlmb, hp1]
    · cases hp1 : parseIso sa with
      | none => simp [needsUpdate, hl, hsainfo, hlme, truthyStr, hsab, hlmb, hp1]
      | some st => simp [needsUpdate, hl, hsainfo, hlme, truthyStr, hsab, hlmb, hp1, hp2]

theorem c10_absent_lastmod_excluded_witness :
    (("u" : String) ∉ get_updated_urls exParse
        [exEntry "u" none] [("u", exMeta "100")] none)
    ∧ ("u" : String) ∈ get_updated_urls exParse
        [exEntry "u" (some "notadate")] [("u", exMeta "100")] none := by
  constructor
  · exact c10_absent_lastmod_excluded.1 exParse
      [exEntry "u" none] [("u", exMeta "100")] (exEntry "u" none) (exMeta "100")
      (List.mem_singleton.mpr rfl) (by decide) rfl rfl
  · exact c10_absent_lastmod_excluded.2 exParse
      [exEntry "u" (some "notadate")] [("u", exMeta "100")]
      (exEntry "u" (some "notadate")) (exMeta "100") "100" "notadate"
      (List.mem_singleton.mpr rfl) (by decide) rfl rfl (by decide) rfl (by decide)
      (Or.inr (by decide))

/-! ## Helper lemmas: storage -/

theorem fileExists_iff (files : List (String × String)) (n : String) :
    fileExists files n = true ↔ ∃ kv ∈ files, kv.1 = n := by
  unfold fileExists
  simp [List.any_eq_true]

theorem keys_map_replace (files : List (String × String)) (n c : String) :
    (files.map (fun kv => if kv.1 == n then (kv.1, c) else kv)).map Prod.fst
      = files.map Prod.fst := by
  rw [List.map_map]
  refine List.map_congr_left ?_
  intro kv _
  by_cases hk : kv.1 = n
  · simp [hk]
  · simp [hk]

theorem fileExists_writeFile_self (files : List (String × String)) (n c : String) :
    fileExists (writeFile files n c) n = true := by
  unfold writeFile
  by_cases h : fileExists files n
  · rw [if_pos h]
    rcases (fileExists_iff files n).mp h with ⟨kv, hkv, hk⟩
    refine (fileExists_iff _ n).mpr ⟨(kv.1, c), List.mem_map.mpr ⟨kv, hkv, by simp [hk]⟩, hk⟩
  · rw [if_neg h]
    exact (fileExists_iff _ n).mpr ⟨(n, c),
      List.mem_append_right _ (List.mem_singleton.mpr rfl), rfl⟩

theorem fileExists_writeFile_mono (files : List (String × String)) (n c m : String)
    (h : fileExists files m = true) : fileExists (writeFile files n c) m = true := by
  unfold writeFile
  rcases (fileExists_iff files m).mp h with ⟨kv, hkv, hk⟩
  by_cases hn : fileExists files n
  · rw [if_pos hn]
    have hfst : (if kv.1 == n then (kv.1, c) else kv).1 = kv.1 := by
      by_cases hkn : kv.1 = n
      · simp [hkn]
      · simp [hkn]
    exact (fileExists_iff _ m).mpr
      ⟨_, List.mem_map.mpr ⟨kv, hkv, rfl⟩, by rw [hfst]; exact hk⟩
  · rw [if_neg hn]
    exact (fileExists_iff _ m).mpr ⟨kv, List.mem_append_left _ hkv, hk⟩

theorem keys_writeFile_of_exists (files : List (String × String)) (n c : String)
    (h : fileExists files n = true) :
    (writeFile files n c).map Prod.fst = files.map Prod.fst := by
  unfold writeFile
  rw [if_pos h]
  exact keys_map_replace files n c

theorem lookupPage_some_any (pages : List (String × ScrapeMeta)) (u : String)
    (m : ScrapeMeta) (h : lookupPage pages u = some m) :
    pages.any (fun kv => kv.1 == u) = true := by
  unfold lookupPage at h
  cases hf : pages.find? (fun kv => kv.1 == u) with
  | none => rw [hf] at h; exact Option.noConfusion h
  | some kv =>
    have hp : (kv.1 == u) = true := by simpa using List.find?_some hf
    exact List.any_eq_true.mpr ⟨kv, List.mem_of_find?_eq_some hf, hp⟩

theorem lookupPage_setPage_self (pages : List (String × ScrapeMeta)) (u : String)
    (m : ScrapeMeta) : lookupPage (setPage pages u m) u = some m := by
  unfold setPage
  by_cases h : pages.any (fun kv => kv.1 == u) = true
  · rw [if_pos h]
    unfold lookupPage
    induction pages with
    | nil => simp at h
    | cons kv fs ih =>
      simp only [List.any_cons, Bool.or_eq_true, beq_iff_eq] at h
      by_cases hk : kv.1 = u
      · subst hk
        simp
      · rcases h with h | h
        · exact absurd h hk
        · simpa [hk] using ih h
  · rw [if_neg h]
    unfold lookupPage
    induction pages with
    | nil => simp
    | cons kv fs ih =>
      have hk : ¬ kv.1 = u := fun hc => h (by simp [List.any_cons, hc])
      have hfs : ¬ fs.any (fun kv => kv.1 == u) = true :=
        fun hc => h (by simp [List.any_cons, hc])
      simpa [hk] using ih hfs

theorem lookupPage_setPage_ne (pages : List (String × ScrapeMeta)) (u v : String)
    (m : ScrapeMeta) (h : v ≠ u) :
    lookupPage (setPage pages u m) v = lookupPage pages v := by
  unfold setPage
  by_cases hc : pages.any (fun kv => kv.1 == u) = true
  · rw [if_pos hc]
    clear hc
    unfold lookupPage
    induction pages with
    | nil => rfl
    | cons kv fs ih =>
      have huv : ¬ u = v := fun hh => h hh.symm
      by_cases hk : kv.1 = u
      · have hkv : ¬ kv.1 = v := by rw [hk]; exact fun hh => h hh.symm
        simpa [hk, hkv, huv] using ih
      · by_cases hkv : kv.1 = v
        · subst hkv
          simp [hk]
        · simpa [hk, hkv, huv] using ih
  · rw [if_neg hc]
    unfold lookupPage
    rw [List.find?_append]
    have hone : List.find? (fun kv => kv.1 == v) [(u, m)] = none := by
      refine List.find?_eq_none.mpr ?_
      intro kv hkv
      rcases List.mem_singleton.mp hkv with rfl
      simp
      exact fun hh => h hh.symm
    rw [hone]
    cases pages.find? (fun kv => kv.1 == v) <;> rfl

theorem digitVal_digitChar (m : Nat) (h : m < 10) : digitVal (Nat.digitChar m) = m := by
  interval_cases m <;> rfl

theorem vfold_cons (c : Char) (ds : List Char) (a : Nat) :
    vfold (c :: ds) a = vfold ds (10 * a + digitVal c) := rfl

theorem vfold_toDigitsCore :
    ∀ (fuel n : Nat) (ds : List Char), n < fuel →
      vfold (Nat.toDigitsCore 10 fuel n ds) 0 = vfold ds n := by
  intro fuel
  induction fuel with
  | zero => intro n ds h; exact absurd h (Nat.not_lt_zero n)
  | succ f ih =>
    intro n ds h
    by_cases h0 : n / 10 = 0
    · have hn10 : n < 10 := (Nat.div_eq_zero_iff (by norm_num)).mp h0
      simp only [Nat.toDigitsCore, h0, if_true]
      rw [vfold_cons, digitVal_digitChar (n % 10) (Nat.mod_lt n (by norm_num))]
      rw [Nat.mul_zero, Nat.zero_add, Nat.mod_eq_of_lt hn10]
    · have hnpos : 0 < n := by
        rcases Nat.eq_zero_or_pos n with rfl | hp
        · exact absurd (by norm_num : (0 : Nat) / 10 = 0) h0
        · exact hp
      have hlt : n / 10 < f :=
        Nat.lt_of_lt_of_le (Nat.div_lt_self hnpos (by norm_num)) (Nat.lt_succ_iff.mp h)
      simp only [Nat.toDigitsCore, h0, if_false]
      rw [ih (n / 10) _ hlt, vfold_cons,
        digitVal_digitChar (n % 10) (Nat.mod_lt n (by norm_num)), Nat.div_add_mod]

theorem vfold_repr (n : Nat) : vfold (Nat.repr n).data 0 = n := by
  show vfold (Nat.toDigitsCore 10 (n + 1) n []).asString.data 0 = n
  have hdata : ∀ cs : List Char, (List.asString cs).data = cs := fun _ => rfl
  rw [hdata]
  exact vfold_toDigitsCore (n + 1) n [] (Nat.lt_succ_self n)

theorem nat_repr_injective : Function.Injective Nat.repr := by
  intro a b h
  have h2 := congrArg (fun s => vfold s.data 0) h
  simpa [vfold_repr] using h2

theorem numberedName_injective (base ext : String) {i j : Nat}
    (h : numberedName base ext i = numberedName base ext j) : i = j := by
  unfold numberedName at h
  have hd := congrArg String.data h
  simp only [String.data_append] at hd
  have hd2 := List.append_cancel_right hd
  have hd3 := List.append_cancel_left hd2
  have hs : (toString i : String) = toString j := String.ext hd3
  exact nat_repr_injective hs

theorem numberedName_ne_empty (base ext : String) (c : Nat) :
    numberedName base ext c ≠ "" := by
  intro h
  have hlen := congrArg String.length h
  have h1 : ("_" : String).length = 1 := rfl
  have h0 : ("" : String).length = 0 := rfl
  simp only [numberedName, String.length_append, h1, h0] at hlen
  omega

theorem ensureUniqueGo_numbered (files : List (String × String)) (base ext : String) :
    ∀ (fuel counter : Nat), ∃ c,
      ensureUniqueGo files base ext fuel counter = numberedName base ext c := by
  intro fuel
  induction fuel with
  | zero => intro counter; exact ⟨counter, rfl⟩
  | succ f ih =>
    intro counter
    by_cases h : fileExists files (numberedName base ext counter) = true
    · rcases ih (counter + 1) with ⟨c, hc⟩
      exact ⟨c, by simp only [ensureUniqueGo, h, if_true]; exact hc⟩
    · refine ⟨counter, ?_⟩
      simp only [ensureUniqueGo]
      rw [if_neg h]

theorem ensureUniqueGo_fresh (files : List (String × String)) (base ext : String) :
    ∀ (fuel counter : Nat),
      (∃ k, k < fuel ∧ fileExists files (numberedName base ext (counter + k)) = false) →
      fileExists files (ensureUniqueGo files base ext fuel counter) = false := by
  intro fuel
  induction fuel with
  | zero =>
    intro counter h
    rcases h with ⟨k, hk, _⟩
    exact absurd hk (Nat.not_lt_zero k)
  | succ f ih =>
    intro counter h
    rcases h with ⟨k, hk, hfree⟩
    by_cases hex : fileExists files (numberedName base ext counter) = true
    · simp only [ensureUniqueGo, hex, if_true]
      refine ih (counter + 1) ⟨k - 1, ?_, ?_⟩
      · have hkne : k ≠ 0 := by
          intro h0
          rw [h0, Nat.add_zero] at hfree
          rw [hfree] at hex
          exact Bool.noConfusion hex
        omega
      · have hkne : k ≠ 0 := by
          intro h0
          rw [h0, Nat.add_zero] at hfree
          rw [hfree] at hex
          exact Bool.noConfusion hex
        have : counter + 1 + (k - 1) = counter + k := by omega
        rw [this]
        exact hfree
    · simp only [ensureUniqueGo]
      rw [if_neg hex]
      simpa using hex

theorem exists_free_numbered (files : List (String × String)) (base ext : String)
    (counter : Nat) :
    ∃ k, k < files.length + 1 ∧
      fileExists files (numberedName base ext (counter + k)) = false := by
  by_contra hcon
  push_neg at hcon
  have hall : ∀ k, k < files.length + 1 →
      fileExists files (numberedName base ext (counter + k)) = true := by
    intro k hk
    have := hcon k hk
    cases hb : fileExists files (numberedName base ext (counter + k))
    · exact absurd hb this
    · rfl
  set L := files.length with hL
  let f : Fin (L + 1) → String := fun k => numberedName base ext (counter + k.1)
  have hinj : Function.Injective f := by
    intro a b hab
    have := numberedName_injective base ext hab
    exact Fin.ext (by omega)
  have hmem : ∀ k : Fin (L + 1), f k ∈ files.map Prod.fst := by
    intro k
    rcases (fileExists_iff files (numberedName base ext (counter + k.1))).mp
      (hall k.1 k.isLt) with ⟨kv, hkv, hfst⟩
    rw [show f k = kv.1 from hfst.symm]
    exact List.mem_map_of_mem Prod.fst hkv
  have hsub : Finset.univ.image f ⊆ (files.map Prod.fst).toFinset := by
    intro x hx
    rcases Finset.mem_image.mp hx with ⟨k, _, rfl⟩
    exact List.mem_toFinset.mpr (hmem k)
  have hcard : (Finset.univ.image f).card = L + 1 := by
    rw [Finset.card_image_of_injective _ hinj, Finset.card_univ, Fintype.card_fin]
  have hle := Finset.card_le_card hsub
  have hle2 : (files.map Prod.fst).toFinset.card ≤ (files.map Prod.fst).length :=
    List.toFinset_card_le (files.map Prod.fst)
  rw [hcard, List.length_map] at *
  omega

theorem ensure_unique_fresh (files : List (String × String)) (fp : String) :
    fileExists files (ensure_unique_filename files fp) = false := by
  unfold ensure_unique_filename
  by_cases h : fileExists files fp = true
  · rw [if_neg (by simp [h])]
    cases hsp : splitExt fp with
    | mk base ext =>
      show fileExists files (ensureUniqueGo files base ext (files.length + 1) 1) = false
      exact ensureUniqueGo_fresh files base ext (files.length + 1) 1
        (exists_free_numbered files base ext 1)
  · rw [if_pos (by simpa using h)]
    simpa using h

theorem ensure_unique_ne_empty (files : List (String × String)) (fp : String)
    (h : fp ≠ "") : ensure_unique_filename files fp ≠ "" := by
  unfold ensure_unique_filename
  by_cases hex : fileExists files fp = true
  · rw [if_neg (by simp [hex])]
    cases hsp : splitExt fp with
    | mk base ext =>
      show ensureUniqueGo files base ext (files.length + 1) 1 ≠ ""
      rcases ensureUniqueGo_numbered files base ext (files.length + 1) 1 with ⟨c, hc⟩
      rw [hc]
      exact numberedName_ne_empty base ext c
  · rw [if_pos (by simpa using hex)]
    exact h

theorem ensureMd_ne_empty (s : String) : ensureMd s ≠ "" := by
  unfold ensureMd
  by_cases h : strEndsWith s ".md" = true
  · rw [if_pos h]
    intro he
    subst he
    exact absurd h (by decide)
  · rw [if_neg h]
    intro he
    have hd := congrArg String.data he
    simp only [String.data_append] at hd
    rcases List.append_eq_nil.mp hd with ⟨_, hmd⟩
    exact List.noConfusion hmd

theorem generate_filename_ne_empty (url : String) (title : Option String) :
    generate_filename url title ≠ "" := by
  unfold generate_filename
  exact ensureMd_ne_empty _

theorem keys_setPage (pages : List (String × ScrapeMeta)) (u : String) (m : ScrapeMeta) :
    (setPage pages u m).map Prod.fst =
      if pages.any (fun kv => kv.1 == u) then pages.map Prod.fst
      else pages.map Prod.fst ++ [u] := by
  unfold setPage
  by_cases h : pages.any (fun kv => kv.1 == u) = true
  · rw [if_pos h, if_pos h, List.map_map]
    refine List.map_congr_left ?_
    intro kv _
    by_cases hk : kv.1 = u
    · simp [hk]
    · simp [hk]
  · rw [if_neg h, if_neg h]
    simp

/-! ## Helper lemmas: save_single_page branches -/

theorem savedState_files (st : StorageState) (p : PageRecord) (f : String) :
    (savedState st p f).files = writeFile st.files f (pageContent p) := rfl

theorem savedState_pages (st : StorageState) (p : PageRecord) (f : String) :
    (savedState st p f).pages = setPage st.pages (pageUrl p)
      { file := f, scraped_at := some (toString st.clock),
        file_size := (pageContent p).length } := rfl

theorem savedState_failingPaths (st : StorageState) (p : PageRecord) (f : String) :
    (savedState st p f).failingPaths = st.failingPaths := rfl

theorem save_branch_existing (st : StorageState) (data : PageRecord) (meta : ScrapeMeta)
    (hfail : st.failingPaths = [])
    (hl : lookupPage st.pages (pageUrl data) = some meta)
    (hne : meta.file ≠ "") (hex : fileExists st.files meta.file = true) :
    save_single_page st data none = (savedState st data meta.file, .ok meta.file) := by
  have hb : (meta.file == "") = false := beq_eq_false_iff_ne.mpr hne
  simp [save_single_page, hl, hb, hex, hfail]

theorem save_branch_known_lost (st : StorageState) (data : PageRecord) (meta : ScrapeMeta)
    (hfail : st.failingPaths = [])
    (hl : lookupPage st.pages (pageUrl data) = some meta)
    (hlost : meta.file = "" ∨ fileExists st.files meta.file = false) :
    save_single_page st data none =
      (savedState st data (generate_filename (pageUrl data) data.title),
       .ok (generate_filename (pageUrl data) data.title)) := by
  rcases hlost with hm | hm
  · simp [save_single_page, hl, hm, hfail]
  · simp [save_single_page, hl, hm, hfail]

theorem save_branch_new_fresh (st : StorageState) (data : PageRecord)
    (hfail : st.failingPaths = [])
    (hl : lookupPage st.pages (pageUrl data) = none)
    (hg : fileExists st.files (generate_filename (pageUrl data) data.title) = false) :
    save_single_page st data none =
      (savedState st data (generate_filename (pageUrl data) data.title),
       .ok (generate_filename (pageUrl data) data.title)) := by
  simp [save_single_page, hl, hg, hfail]

theorem save_branch_new_collision (st : StorageState) (data : PageRecord)
    (hfail : st.failingPaths = [])
    (hl : lookupPage st.pages (pageUrl data) = none)
    (hg : fileExists st.files (generate_filename (pageUrl data) data.title) = true) :
    save_single_page st data none =
      (savedState st data
         (ensure_unique_filename st.files (generate_filename (pageUrl data) data.title)),
       .ok (ensure_unique_filename st.files (generate_filename (pageUrl data) data.title))) := by
  simp [save_single_page, hl, hg, hfail]

theorem save_ok_exists (st : StorageState) (data : PageRecord)
    (hfail : st.failingPaths = []) :
    ∃ f, save_single_page st data none = (savedState st data f, .ok f) ∧ f ≠ "" := by
  cases hl : lookupPage st.pages (pageUrl data) with
  | some meta =>
    by_cases hm : meta.file ≠ "" ∧ fileExists st.files meta.file = true
    · exact ⟨meta.file, save_branch_existing st data meta hfail hl hm.1 hm.2, hm.1⟩
    · have hlost : meta.file = "" ∨ fileExists st.files meta.file = false := by
        rcases not_and_or.mp hm with h | h
        · exact Or.inl (not_not.mp h)
        · exact Or.inr (by
            cases hb : fileExists st.files meta.file
            · rfl
            · exact absurd hb h)
      exact ⟨_, save_branch_known_lost st data meta hfail hl hlost,
        generate_filename_ne_empty _ _⟩
  | none =>
    by_cases hg : fileExists st.files (generate_filename (pageUrl data) data.title) = true
    · exact ⟨_, save_branch_new_collision st data hfail hl hg,
        ensure_unique_ne_empty _ _ (generate_filename_ne_empty _ _)⟩
    · refine ⟨_, save_branch_new_fresh st data hfail hl ?_, generate_filename_ne_empty _ _⟩
      cases hb : fileExists st.files (generate_filename (pageUrl data) data.title)
      · rfl
      · exact absurd hb hg

/-- C3: saving the same PageRecord twice (no filesystem failures, well-formed metadata)
returns the same path both times, leaves exactly one entry for the URL in the pages
map, and the second save creates no new file: the file-name set is unchanged. -/
theorem c3_idempotent_double_save (st : StorageState) (data : PageRecord)
    (hfail : st.failingPaths = [])
    (hnd : (st.pages.map Prod.fst).Nodup) :
    ∃ f st1 st2,
      save_single_page st data none = (st1, .ok f) ∧
      save_single_page st1 data none = (st2, .ok f) ∧
      (st2.pages.map Prod.fst).count (pageUrl data) = 1 ∧
      st2.files.map Prod.fst = st1.files.map Prod.fst := by
  rcases save_ok_exists st data hfail with ⟨f, heq, hne⟩
  refine ⟨f, savedState st data f, savedState (savedState st data f) data f, heq, ?_, ?_, ?_⟩
  · have hl1 : lookupPage (savedState st data f).pages (pageUrl data) =
        some { file := f, scraped_at := some (toString st.clock),
               file_size := (pageContent data).length } := by
      rw [savedState_pages]
      exact lookupPage_setPage_self st.pages (pageUrl data) _
    have hex1 : fileExists (savedState st data f).files f = true := by
      rw [savedState_files]
      exact fileExists_writeFile_self st.files f (pageContent data)
    exact save_branch_existing (savedState st data f) data _
      (by rw [savedState_failingPaths]; exact hfail) hl1 hne hex1
  · rw [savedState_pages, keys_setPage]
    have hany1 : (savedState st data f).pages.any
        (fun kv => kv.1 == pageUrl data) = true := by
      rw [savedState_pages]
      exact lookupPage_some_any _ _ _ (lookupPage_setPage_self st.pages (pageUrl data) _)
    rw [if_pos hany1, savedState_pages, keys_setPage]
    by_cases hany : st.pages.any (fun kv => kv.1 == pageUrl data) = true
    · rw [if_pos hany]
      rcases List.any_eq_true.mp hany with ⟨kv, hkv, hb⟩
      have hkv1 : kv.1 = pageUrl data := by simpa using hb
      exact List.count_eq_one_of_mem hnd (hkv1 ▸ List.mem_map_of_mem Prod.fst hkv)
    · rw [if_neg hany]
      rw [List.count_append]
      have hnotmem : pageUrl data ∉ st.pages.map Prod.fst := by
        intro hmem
        rcases List.mem_map.mp hmem with ⟨kv, hkv, hfst⟩
        exact hany (List.any_eq_true.mpr ⟨kv, hkv, by simp [hfst]⟩)
      rw [List.count_eq_zero_of_not_mem hnotmem]
      simp
  · rw [savedState_files (savedState st data f), keys_writeFile_of_exists]
    rw [savedState_files]
    exact fileExists_writeFile_self st.files f (pageContent data)

theorem c3_idempotent_double_save_witness :
    ∃ f st1 st2,
      save_single_page emptyStorage (exPage "https://e.com/a/p" (some "T") "body") none
        = (st1, .ok f) ∧
      save_single_page st1 (exPage "https://e.com/a/p" (some "T") "body") none
        = (st2, .ok f) ∧
      (st2.pages.map Prod.fst).count (pageUrl (exPage "https://e.com/a/p" (some "T") "body")) = 1 ∧
      st2.files.map Prod.fst = st1.files.map Prod.fst :=
  c3_idempotent_double_save emptyStorage (exPage "https://e.com/a/p" (some "T") "body")
    rfl (by decide)

/-- C5: two distinct new URLs whose derived file names collide are saved to two distinct
files, both present afterwards; and re-saving a URL that already has a CorpusEntry whose
file exists reuses that very path, with no collision-avoidance against it. -/
theorem c5_collision_handling :
    (∀ (st : StorageState) (p1 p2 : PageRecord),
      st.failingPaths = [] →
      lookupPage st.pages (pageUrl p1) = none →
      lookupPage st.pages (pageUrl p2) = none →
      pageUrl p1 ≠ pageUrl p2 →
      generate_filename (pageUrl p1) p1.title = generate_filename (pageUrl p2) p2.title →
      ∃ f1 f2 st1 st2,
        save_single_page st p1 none = (st1, .ok f1) ∧
        save_single_page st1 p2 none = (st2, .ok f2) ∧
        f1 ≠ f2 ∧
        fileExists st2.files f1 = true ∧
        fileExists st2.files f2 = true)
    ∧ (∀ (st : StorageState) (p : PageRecord) (meta : ScrapeMeta),
      st.failingPaths = [] →
      lookupPage st.pages (pageUrl p) = some meta → meta.file ≠ "" →
      fileExists st.files meta.file = true →
      (save_single_page st p none).2 = .ok meta.file) := by
  constructor
  · intro st p1 p2 hfail hl1 hl2 hne hsame
    have hl2' : ∀ f1, lookupPage (savedState st p1 f1).pages (pageUrl p2) = none := by
      intro f1
      rw [savedState_pages, lookupPage_setPage_ne st.pages (pageUrl p1) (pageUrl p2) _
        (fun hh => hne hh.symm)]
      exact hl2
    by_cases hex : fileExists st.files (generate_filename (pageUrl p1) p1.title) = true
    · have h1 := save_branch_new_collision st p1 hfail hl1 hex
      have hex1 : fileExists
          (savedState st p1
            (ensure_unique_filename st.files (generate_filename (pageUrl p1) p1.title))).files
          (ensure_unique_filename st.files (generate_filename (pageUrl p1) p1.title))
          = true := by
        rw [savedState_files]
        exact fileExists_writeFile_self _ _ _
      have hexg : fileExists
          (savedState st p1
            (ensure_unique_filename st.files (generate_filename (pageUrl p1) p1.title))).files
          (generate_filename (pageUrl p2) p2.title) = true := by
        rw [savedState_files, ← hsame]
        exact fileExists_writeFile_mono _ _ _ _ hex
      have h2 := save_branch_new_collision
        (savedState st p1
          (ensure_unique_filename st.files (generate_filename (pageUrl p1) p1.title))) p2
        (by rw [savedState_failingPaths]; exact hfail) (hl2' _) hexg
      have hfresh2 : fileExists
          (savedState st p1
            (ensure_unique_filename st.files (generate_filename (pageUrl p1) p1.title))).files
          (ensure_unique_filename
            (savedState st p1
              (ensure_unique_filename st.files (generate_filename (pageUrl p1) p1.title))).files
            (generate_filename (pageUrl p2) p2.title)) = false :=
        ensure_unique_fresh _ _
      refine ⟨_, _, _, _, h1, h2, ?_, ?_, ?_⟩
      · intro hcontra
        rw [← hcontra] at hfresh2
        rw [hex1] at hfresh2
        exact Bool.noConfusion hfresh2
      · rw [savedState_files]
        exact fileExists_writeFile_mono _ _ _ _ hex1
      · rw [savedState_files]
        exact fileExists_writeFile_self _ _ _
    · have hex' : fileExists st.files (generate_filename (pageUrl p1) p1.title) = false := by
        cases hb : fileExists st.files (generate_filename (pageUrl p1) p1.title)
        · rfl
        · exact absurd hb hex
      have h1 := save_branch_new_fresh st p1 hfail hl1 hex'
      have hex1 : fileExists
          (savedState st p1 (generate_filename (pageUrl p1) p1.title)).files
          (generate_filename (pageUrl p1) p1.title) = true := by
        rw [savedState_files]
        exact fileExists_writeFile_self _ _ _
      have h2 := save_branch_new_collision
        (savedState st p1 (generate_filename (pageUrl p1) p1.title)) p2
        (by rw [savedState_failingPaths]; exact hfail) (hl2' _)
        (by rw [← hsame]; exact hex1)
      have hfresh2 : fileExists
          (savedState st p1 (generate_filename (pageUrl p1) p1.title)).files
          (ensure_unique_filename
            (savedState st p1 (generate_filename (pageUrl p1) p1.title)).files
            (generate_filename (pageUrl p2) p2.title)) = false :=
        ensure_unique_fresh _ _
      refine ⟨_, _, _, _, h1, h2, ?_, ?_, ?_⟩
      · intro hcontra
        rw [← hcontra] at hfresh2
        rw [hex1] at hfresh2
        exact Bool.noConfusion hfresh2
      · rw [savedState_files]
        exact fileExists_writeFile_mono _ _ _ _ hex1
      · rw [savedState_files]
        exact fileExists_writeFile_self _ _ _
  · intro st p meta hfail hl hne hex
    rw [save_branch_existing st p meta hfail hl hne hex]

theorem c5_collision_handling_witness :
    (∃ f1 f2 st1 st2,
      save_single_page emptyStorage (exPage "https://e.com/b/p" none "b2") none
        = (st1, .ok f1) ∧
      save_single_page st1 (exPage "https://e.com/c/p" none "b3") none
        = (st2, .ok f2) ∧
      f1 ≠ f2 ∧
      fileExists st2.files f1 = true ∧
      fileExists st2.files f2 = true) ∧
    (save_single_page
        { emptyStorage with
            files := [("p.md", "old")],
            pages := [("https://e.com/b/p", { file := "p.md", scraped_at := some "0",
                                              file_size := 3 })] }
        (exPage "https://e.com/b/p" none "b2") none).2 = .ok "p.md" := by
  constructor
  · exact c5_collision_handling.1 emptyStorage
      (exPage "https://e.com/b/p" none "b2") (exPage "https://e.com/c/p" none "b3")
      rfl rfl rfl (by decide) (by decide)
  · exact c5_collision_handling.2 _ (exPage "https://e.com/b/p" none "b2")
      { file := "p.md", scraped_at := some "0", file_size := 3 }
      rfl (by decide) (by decide) (by decide)

/-- C9: for a URL that has a CorpusEntry whose recorded file is gone from disk, the save
derives a fresh name and, because the URL is present in the pages map, skips the
uniquing step: an unrelated file already bearing that name is overwritten in place (the
returned path is the derived name and no new file name appears). -/
theorem c9_known_url_lost_file_overwrites (st : StorageState) (data : PageRecord)
    (meta : ScrapeMeta)
    (hfail : st.failingPaths = [])
    (hl : lookupPage st.pages (pageUrl data) = some meta)
    (hlost : fileExists st.files meta.file = false)
    (hex : fileExists st.files (generate_filename (pageUrl data) data.title) = true) :
    (save_single_page st data none).2 = .ok (generate_filename (pageUrl data) data.title)
    ∧ (save_single_page st data none).1.files.map Prod.fst = st.files.map Prod.fst := by
  have h := save_branch_known_lost st data meta hfail hl (Or.inr hlost)
  rw [h]
  constructor
  · rfl
  · rw [savedState_files]
    exact keys_writeFile_of_exists st.files _ _ hex

theorem c9_known_url_lost_file_overwrites_witness :
    ((save_single_page
        { emptyStorage with
            files := [("u.md", "unrelated")],
            pages := [("u", { file := "gone.md", scraped_at := some "0", file_size := 3 })] }
        (exPage "u" none "body") none).2 = .ok "u.md")
    ∧ (save_single_page
        { emptyStorage with
            files := [("u.md", "unrelated")],
            pages := [("u", { file := "gone.md", scraped_at := some "0", file_size := 3 })] }
        (exPage "u" none "body") none).1.files.map Prod.fst = ["u.md"] := by
  have h := c9_known_url_lost_file_overwrites
    { emptyStorage with
        files := [("u.md", "unrelated")],
        pages := [("u", { file := "gone.md", scraped_at := some "0", file_size := 3 })] }
    (exPage "u" none "body")
    { file := "gone.md", scraped_at := some "0", file_size := 3 }
    rfl (by decide) (by decide) (by decide)
  refine ⟨?_, ?_⟩
  · have h1 := h.1
    rw [show generate_filename (pageUrl (exPage "u" none "body"))
        (exPage "u" none "body").title = "u.md" from rfl] at h1
    exact h1
  · rw [h.2]
    rfl

/-! ## Helper lemmas: save_multiple_pages -/

theorem save_single_page_failingPaths (st : StorageState) (p : PageRecord)
    (c : Option String) :
    (save_single_page st p c).1.failingPaths = st.failingPaths := by
  simp only [save_single_page]
  repeat' split
  all_goals rfl

theorem batchStep_ok (st : StorageState) (p : PageRecord) (st' : StorageState)
    (fp : String) (s : List String) (i : List IndexEntry)
    (h : save_single_page st p none = (st', .ok fp)) :
    batchStep (st, s, i) p = (st', s ++ [fp], i ++ [indexEntryFor p fp]) := by
  simp [batchStep, h]

theorem batchStep_error (st : StorageState) (p : PageRecord) (st' : StorageState)
    (e : StorageErr) (s : List String) (i : List IndexEntry)
    (h : save_single_page st p none = (st', .error e)) :
    batchStep (st, s, i) p = (st', s, i) := by
  simp [batchStep, h]

theorem runBatch_acc (ps : List PageRecord) :
    ∀ (st : StorageState) (s : List String) (i : List IndexEntry),
      ps.foldl batchStep (st, s, i)
        = ((runBatch st ps).1, s ++ (runBatch st ps).2.1, i ++ (runBatch st ps).2.2) := by
  induction ps with
  | nil => intro st s i; simp [runBatch]
  | cons p ps ih =>
    intro st s i
    rcases hsv : save_single_page st p none with ⟨st', r⟩
    cases r with
    | ok fp =>
      rw [List.foldl_cons, batchStep_ok st p st' fp s i hsv, ih]
      rw [show runBatch st (p :: ps) = ps.foldl batchStep (st', [fp], [indexEntryFor p fp])
        from by
          rw [runBatch, List.foldl_cons, batchStep_ok st p st' fp [] [] hsv]
          simp only [List.nil_append]]
      rw [ih st' [fp] [indexEntryFor p fp]]
      simp
    | error e =>
      rw [List.foldl_cons, batchStep_error st p st' e s i hsv, ih]
      rw [show runBatch st (p :: ps) = ps.foldl batchStep (st', [], [])
        from by rw [runBatch, List.foldl_cons, batchStep_error st p st' e [] [] hsv]]
      rw [ih st' [] []]
      simp

theorem runBatch_append (st : StorageState) (xs ys : List PageRecord) :
    runBatch st (xs ++ ys)
      = ((runBatch (runBatch st xs).1 ys).1,
         (runBatch st xs).2.1 ++ (runBatch (runBatch st xs).1 ys).2.1,
         (runBatch st xs).2.2 ++ (runBatch (runBatch st xs).1 ys).2.2) := by
  rw [runBatch, List.foldl_append]
  rw [show xs.foldl batchStep (st, [], []) = runBatch st xs from rfl]
  rw [show runBatch st xs
      = ((runBatch st xs).1, (runBatch st xs).2.1, (runBatch st xs).2.2) from rfl]
  exact runBatch_acc ys (runBatch st xs).1 (runBatch st xs).2.1 (runBatch st xs).2.2

theorem runBatch_failingPaths (ps : List PageRecord) :
    ∀ st : StorageState, (runBatch st ps).1.failingPaths = st.failingPaths := by
  induction ps with
  | nil => intro st; rfl
  | cons p ps ih =>
    intro st
    rcases hsv : save_single_page st p none with ⟨st', r⟩
    have hst' : st'.failingPaths = st.failingPaths := by
      have := save_single_page_failingPaths st p none
      rw [hsv] at this
      exact this
    cases r with
    | ok fp =>
      rw [runBatch, List.foldl_cons, batchStep_ok st p st' fp [] [] hsv]
      simp only [List.nil_append]
      rw [runBatch_acc ps st' [fp] [indexEntryFor p fp]]
      exact (ih st').trans hst'
    | error e =>
      rw [runBatch, List.foldl_cons, batchStep_error st p st' e [] [] hsv]
      rw [runBatch_acc ps st' [] []]
      exact (ih st').trans hst'

/-- C8: a StorageError raised while saving one page of a batch is fatal only for that
page: the batch goes on from the state the failed save left, every later page is still
attempted, and the returned list is exactly the concatenation of the paths saved before
and after the failing page. -/
theorem c8_storage_error_batch_isolation (st : StorageState) (xs : List PageRecord)
    (q : PageRecord) (ys : List PageRecord) (create_index : Bool) (e : StorageErr)
    (hq : (save_single_page (runBatch st xs).1 q none).2 = .error e)
    (hidx : "INDEX.md" ∉ st.failingPaths) :
    (runBatch st (xs ++ q :: ys)).2.1
      = (runBatch st xs).2.1
        ++ (runBatch (save_single_page (runBatch st xs).1 q none).1 ys).2.1
    ∧ (save_multiple_pages st (xs ++ q :: ys) create_index).2
      = .ok ((runBatch st xs).2.1
        ++ (runBatch (save_single_page (runBatch st xs).1 q none).1 ys).2.1) := by
  rcases hsv : save_single_page (runBatch st xs).1 q none with ⟨stq, r⟩
  have hr : r = .error e := by
    rw [hsv] at hq
    exact hq
  subst hr
  have hqys : runBatch (runBatch st xs).1 (q :: ys) = runBatch stq ys := by
    rw [runBatch, List.foldl_cons, batchStep_error _ q stq e [] [] hsv]
    rfl
  have hsplit := runBatch_append st xs (q :: ys)
  rw [hqys] at hsplit
  have hfirst : (runBatch st (xs ++ q :: ys)).2.1
      = (runBatch st xs).2.1 ++ (runBatch stq ys).2.1 := by
    rw [hsplit]
  refine ⟨hfirst, ?_⟩
  have hfp : (runBatch st (xs ++ q :: ys)).1.failingPaths = st.failingPaths :=
    runBatch_failingPaths (xs ++ q :: ys) st
  rcases hrb : runBatch st (xs ++ q :: ys) with ⟨st2, saved, idx⟩
  have hsaved : saved = (runBatch st xs).2.1 ++ (runBatch stq ys).2.1 := by
    rw [hrb] at hfirst
    exact hfirst
  have hst2 : st2.failingPaths = st.failingPaths := by
    rw [hrb] at hfp
    exact hfp
  rw [show save_multiple_pages st (xs ++ q :: ys) create_index
      = (let t := runBatch st (xs ++ q :: ys)
         if create_index && !t.2.2.isEmpty then
           match create_index_file t.1 t.2.2 with
           | .ok st'' => (st'', .ok t.2.1)
           | .error err => (t.1, .error err)
         else (t.1, .ok t.2.1)) from by
    simp only [save_multiple_pages]]
  rw [hrb]
  by_cases hci : (create_index && !idx.isEmpty) = true
  · simp only [hci, if_true]
    have hnc : "INDEX.md" ∉ st2.failingPaths := by
      rw [hst2]
      exact hidx
    rw [show create_index_file st2 idx
        = .ok { st2 with files := writeFile st2.files "INDEX.md" (indexContent idx) } from by
      simp [create_index_file, hnc]]
    simpa using hsaved
  · simp only [Bool.not_eq_true] at hci
    simp only [hci]
    simpa using hsaved

theorem c8_storage_error_batch_isolation_witness :
    (runBatch { emptyStorage with failingPaths := ["T.md"] }
        ([] ++ exPage "https://e.com/a/p" (some "T") "x"
          :: [exPage "https://e.com/b/q" none "y"])).2.1
      = (runBatch { emptyStorage with failingPaths := ["T.md"] } []).2.1
        ++ (runBatch (save_single_page
              (runBatch { emptyStorage with failingPaths := ["T.md"] } []).1
              (exPage "https://e.com/a/p" (some "T") "x") none).1
            [exPage "https://e.com/b/q" none "y"]).2.1
    ∧ (save_multiple_pages { emptyStorage with failingPaths := ["T.md"] }
        ([] ++ exPage "https://e.com/a/p" (some "T") "x"
          :: [exPage "https://e.com/b/q" none "y"]) true).2
      = .ok ((runBatch { emptyStorage with failingPaths := ["T.md"] } []).2.1
        ++ (runBatch (save_single_page
              (runBatch { emptyStorage with failingPaths := ["T.md"] } []).1
              (exPage "https://e.com/a/p" (some "T") "x") none).1
            [exPage "https://e.com/b/q" none "y"]).2.1) :=
  c8_storage_error_batch_isolation { emptyStorage with failingPaths := ["T.md"] }
    [] (exPage "https://e.com/a/p" (some "T") "x") [exPage "https://e.com/b/q" none "y"]
    true (.cannotWrite "T.md") (by decide) (by decide)

/-! ## Helper lemmas: scrape_url -/

theorem scrapeLoop_attempts_le (outcomes : Nat → ScrapeAttemptOutcome) :
    ∀ (remaining attempt : Nat) (tr : ScrapeTrace),
      (scrapeLoop outcomes remaining attempt tr).2.attemptsMade
        ≤ tr.attemptsMade + remaining := by
  intro remaining
  induction remaining with
  | zero => intro attempt tr; exact Nat.le_refl _
  | succ r ih =>
    intro attempt tr
    cases houtcome : outcomes attempt with
    | success d =>
      simp only [scrapeLoop, houtcome]
      show tr.attemptsMade + 1 ≤ tr.attemptsMade + (r + 1)
      omega
    | httpError code =>
      simp only [scrapeLoop, houtcome]
      by_cases hc : (code == 408) = true
      · rw [if_pos hc]
        by_cases ha : attempt < scrapeMaxRetries - 1
        · rw [if_pos ha]
          refine le_trans (ih (attempt + 1) _) ?_
          show tr.attemptsMade + 1 + r ≤ tr.attemptsMade + (r + 1)
          omega
        · rw [if_neg ha]
          show tr.attemptsMade + 1 ≤ tr.attemptsMade + (r + 1)
          omega
      · rw [if_neg hc]
        show tr.attemptsMade + 1 ≤ tr.attemptsMade + (r + 1)
        omega
    | connError =>
      simp only [scrapeLoop, houtcome]
      by_cases ha : attempt < scrapeMaxRetries - 1
      · rw [if_pos ha]
        refine le_trans (ih (attempt + 1) _) ?_
        show tr.attemptsMade + 1 + r ≤ tr.attemptsMade + (r + 1)
        omega
      · rw [if_neg ha]
        show tr.attemptsMade + 1 ≤ tr.attemptsMade + (r + 1)
        omega
    | clientTimeout =>
      simp only [scrapeLoop, houtcome]
      by_cases ha : attempt < scrapeMaxRetries - 1
      · rw [if_pos ha]
        refine le_trans (ih (attempt + 1) _) ?_
        show tr.attemptsMade + 1 + r ≤ tr.attemptsMade + (r + 1)
        omega
      · rw [if_neg ha]
        show tr.attemptsMade + 1 ≤ tr.attemptsMade + (r + 1)
        omega
    | requestError =>
      simp only [scrapeLoop, houtcome]
      by_cases ha : attempt < scrapeMaxRetries - 1
      · rw [if_pos ha]
        refine le_trans (ih (attempt + 1) _) ?_
        show tr.attemptsMade + 1 + r ≤ tr.attemptsMade + (r + 1)
        omega
      · rw [if_neg ha]
        show tr.attemptsMade + 1 ≤ tr.attemptsMade + (r + 1)
        omega

/-- C7 counterexample: a connection error — not a member of the request-timeout class —
is retried by scrape_url: with a connection error on the first attempt and a success on
the second, the call returns the data after two attempts instead of failing at once. -/
theorem c7_counterexample_conn_error_retried :
    scrape_url (fun i => if i == 0 then .connError else .success "d")
      = (.ok "d", { attemptsMade := 2, timeoutsUsed := [120, 150],
                    delaysSlept := [2] }) := by decide

/-- C7 (amended): scrape_url retries the request-timeout class (HTTP 408 and
client-side timeouts) and likewise retries connection errors and generic non-HTTP
request errors, using the escalating per-attempt timeouts 120s, 150s, 180s and the
inter-attempt delay schedule 2s then 5s; it makes at most 3 attempts; a non-408 HTTP
error is never retried and raises ApiError at once. -/
theorem c7_scrape_retry_policy :
    (scrape_url (fun _ => .httpError 408)
        = (.timeoutError, { attemptsMade := 3, timeoutsUsed := [120, 150, 180],
                            delaysSlept := [2, 5] }))
    ∧ (scrape_url (fun _ => .clientTimeout)
        = (.timeoutError, { attemptsMade := 3, timeoutsUsed := [120, 150, 180],
                            delaysSlept := [2, 5] }))
    ∧ (scrape_url (fun _ => .connError)
        = (.connectionError, { attemptsMade := 3, timeoutsUsed := [120, 150, 180],
                               delaysSlept := [2, 5] }))
    ∧ (scrape_url (fun _ => .requestError)
        = (.apiError, { attemptsMade := 3, timeoutsUsed := [120, 150, 180],
                        delaysSlept := [2, 5] }))
    ∧ (∀ (outcomes : Nat → ScrapeAttemptOutcome) (code : Nat), code ≠ 408 →
        outcomes 0 = .httpError code →
        scrape_url outcomes = (.apiError, { attemptsMade := 1, timeoutsUsed := [120],
                                            delaysSlept := [] }))
    ∧ (∀ (outcomes : Nat → ScrapeAttemptOutcome) (d : String),
        outcomes 0 = .connError → outcomes 1 = .success d →
        scrape_url outcomes = (.ok d, { attemptsMade := 2, timeoutsUsed := [120, 150],
                                        delaysSlept := [2] }))
    ∧ (∀ (outcomes : Nat → ScrapeAttemptOutcome) (d : String),
        outcomes 0 = .requestError → outcomes 1 = .success d →
        scrape_url outcomes = (.ok d, { attemptsMade := 2, timeoutsUsed := [120, 150],
                                        delaysSlept := [2] }))
    ∧ (∀ (outcomes : Nat → ScrapeAttemptOutcome) (d : String),
        outcomes 0 = .clientTimeout → outcomes 1 = .success d →
        scrape_url outcomes = (.ok d, { attemptsMade := 2, timeoutsUsed := [120, 150],
                                        delaysSlept := [2] }))
    ∧ (∀ outcomes : Nat → ScrapeAttemptOutcome,
        (scrape_url outcomes).2.attemptsMade ≤ 3) := by
  refine ⟨by decide, by decide, by decide, by decide, ?_, ?_, ?_, ?_, ?_⟩
  · intro outcomes code hcode h0
    have hb : (code == 408) = false := beq_eq_false_iff_ne.mpr hcode
    simp [scrape_url, scrapeLoop, h0, hb, scrapeTimeouts]
  · intro outcomes d h0 h1
    simp [scrape_url, scrapeLoop, h0, h1, scrapeTimeouts, scrapeRetryDelays,
      scrapeMaxRetries]
  · intro outcomes d h0 h1
    simp [scrape_url, scrapeLoop, h0, h1, scrapeTimeouts, scrapeRetryDelays,
      scrapeMaxRetries]
  · intro outcomes d h0 h1
    simp [scrape_url, scrapeLoop, h0, h1, scrapeTimeouts, scrapeRetryDelays,
      scrapeMaxRetries]
  · intro outcomes
    exact scrapeLoop_attempts_le outcomes scrapeMaxRetries 0 _

theorem c7_scrape_retry_policy_witness :
    scrape_url (fun _ => .httpError 500)
      = (.apiError, { attemptsMade := 1, timeoutsUsed := [120], delaysSlept := [] })
    ∧ scrape_url (fun i => if i == 0 then .connError else .success "d")
      = (.ok "d", { attemptsMade := 2, timeoutsUsed := [120, 150], delaysSlept := [2] })
    ∧ scrape_url (fun i => if i == 0 then .requestError else .success "d")
      = (.ok "d", { attemptsMade := 2, timeoutsUsed := [120, 150], delaysSlept := [2] })
    ∧ scrape_url (fun i => if i == 0 then .clientTimeout else .success "d")
      = (.ok "d", { attemptsMade := 2, timeoutsUsed := [120, 150], delaysSlept := [2] }) :=
  ⟨c7_scrape_retry_policy.2.2.2.2.1 (fun _ => .httpError 500) 500 (by decide) rfl,
   c7_scrape_retry_policy.2.2.2.2.2.1
     (fun i => if i == 0 then .connError else .success "d") "d" rfl rfl,
   c7_scrape_retry_policy.2.2.2.2.2.2.1
     (fun i => if i == 0 then .requestError else .success "d") "d" rfl rfl,
   c7_scrape_retry_policy.2.2.2.2.2.2.2.1
     (fun i => if i == 0 then .clientTimeout else .success "d") "d" rfl rfl⟩

/-! ## Helper lemmas: wait_for_crawl -/

theorem subwaitLoop_shape (cfg : WaitCfg) (dw mdw : Nat) :
    ∀ (fuel : Nat) (st : WaitState),
      subwaitLoop cfg dw mdw fuel st = .noFuel
      ∨ (∃ st', subwaitLoop cfg dw mdw fuel st = .exited st')
      ∨ subwaitLoop cfg dw mdw fuel st = .finished (.connErr statusConnMessage)
      ∨ (∃ sd, subwaitLoop cfg dw mdw fuel st = .finished (.success sd)) := by
  intro fuel
  induction fuel with
  | zero => intro st; exact Or.inl rfl
  | succ f ih =>
    intro st
    simp only [subwaitLoop]
    by_cases hcond : loopActive cfg st.now = true ∧ st.now - dw < mdw
    · rw [if_pos hcond]
      cases hp : cfg.polls st.idx with
      | connError => exact Or.inr (Or.inr (Or.inl rfl))
      | ok sd =>
        dsimp only
        by_cases hd : sd.data ≠ []
        · rw [if_pos hd]
          exact Or.inr (Or.inr (Or.inr ⟨sd, rfl⟩))
        · rw [if_neg hd]
          by_cases hs : sd.status ≠ "completed"
          · rw [if_pos hs]
            exact Or.inr (Or.inl ⟨_, rfl⟩)
          · rw [if_neg hs]
            exact ih _
    · rw [if_neg hcond]
      exact Or.inr (Or.inl ⟨st, rfl⟩)

theorem subwait_shape (cfg : WaitCfg) (dw mdw fuel : Nat) (st : WaitState) :
    subwait cfg dw mdw fuel st = .noFuel
    ∨ (∃ st', subwait cfg dw mdw fuel st = .exited st')
    ∨ subwait cfg dw mdw fuel st = .finished (.connErr statusConnMessage)
    ∨ (∃ sd, subwait cfg dw mdw fuel st = .finished (.success sd)) := by
  unfold subwait
  rcases subwaitLoop_shape cfg dw mdw fuel st with h | ⟨st', h⟩ | h | ⟨sd, h⟩
  · rw [h]
    exact Or.inl rfl
  · rw [h]
    dsimp only
    cases hp : cfg.polls st'.idx with
    | connError => exact Or.inr (Or.inr (Or.inl rfl))
    | ok sd =>
      dsimp only
      by_cases hd : sd.data ≠ []
      · rw [if_pos hd]
        exact Or.inr (Or.inr (Or.inr ⟨sd, rfl⟩))
      · rw [if_neg hd]
        exact Or.inr (Or.inl ⟨_, rfl⟩)
  · rw [h]
    exact Or.inr (Or.inr (Or.inl rfl))
  · rw [h]
    exact Or.inr (Or.inr (Or.inr ⟨sd, rfl⟩))

theorem statusStep_ne_timeout (cfg : WaitCfg) (st : WaitState) (sd : StatusData)
    (s : String) : statusStep cfg st sd ≠ .finished (.timeoutErr s) := by
  simp only [statusStep]
  by_cases hc : sd.status = "completed"
  · rw [if_pos hc]
    by_cases hd : sd.data ≠ []
    · rw [if_pos hd]
      simp
    · rw [if_neg hd]
      by_cases h1 : st.completedWithoutDataCount + 1 = 1
      · rw [if_pos h1]
        rcases subwait_shape cfg st.now
            (match cfg.maxWaitTime with | none => 60 | some t => min 60 (t - st.now))
            ((match cfg.maxWaitTime with | none => 60 | some t => min 60 (t - st.now)) + 1)
            { st with completedWithoutDataCount := st.completedWithoutDataCount + 1 }
          with hsw | ⟨st2, hsw⟩ | hsw | ⟨sd2, hsw⟩ <;> rw [hsw]
        · simp
        · dsimp only
          by_cases h3 : maxCompletedWithoutData ≤ st2.completedWithoutDataCount
          · rw [if_pos h3]
            simp
          · rw [if_neg h3]
            simp
        · simp
        · simp
      · rw [if_neg h1]
        dsimp only
        by_cases h3 : maxCompletedWithoutData ≤ st.completedWithoutDataCount + 1
        · rw [if_pos h3]
          simp
        · rw [if_neg h3]
          simp
  · rw [if_neg hc]
    by_cases hf : sd.status = "failed"
    · rw [if_pos hf]
      simp
    · rw [if_neg hf]
      simp

theorem wait_no_timeout_of_no_deadline (cfg : WaitCfg) (hmax : cfg.maxWaitTime = none) :
    ∀ (fuel : Nat) (st : WaitState) (s : String),
      wait_for_crawl cfg fuel st ≠ .timeoutErr s := by
  intro fuel
  induction fuel with
  | zero =>
    intro st s
    simp only [wait_for_crawl]
    by_cases hl : loopActive cfg st.now = true
    · rw [if_pos hl]
      simp
    · rw [if_neg hl]
      unfold waitExit
      rw [hmax]
      cases st.lastStatusData <;> simp
  | succ f ih =>
    intro st s
    simp only [wait_for_crawl]
    by_cases hl : loopActive cfg st.now = true
    · rw [if_pos hl]
      cases hp : cfg.polls st.idx with
      | connError =>
        dsimp only
        by_cases hc : maxConsecutiveConnErrors ≤ st.consecutiveConnErrors + 1
        · rw [if_pos hc]
          simp
        · rw [if_neg hc]
          exact ih _ s
      | ok sd =>
        dsimp only
        cases hss : statusStep cfg
            { st with idx := st.idx + 1, consecutiveConnErrors := 0,
                      lastStatusData := some sd } sd with
        | finished r =>
          dsimp only
          intro heq
          exact statusStep_ne_timeout cfg _ sd s (by rw [hss, heq])
        | noFuel =>
          dsimp only
          simp
        | exited st2 =>
          dsimp only
          exact ih st2 s
    · rw [if_neg hl]
      unfold waitExit
      rw [hmax]
      cases st.lastStatusData <;> simp

theorem wait_timeout_aux (cfg : WaitCfg) (sds : Nat → StatusData) (T : Nat)
    (hpolls : ∀ i, cfg.polls i = .ok (sds i))
    (hnt : ∀ i, (sds i).status ≠ "completed" ∧ (sds i).status ≠ "failed")
    (hmax : cfg.maxWaitTime = some T) :
    ∀ (fuel : Nat) (st : WaitState) (j : Nat),
      st.lastStatusData = some (sds j) →
      T ≤ st.now + fuel * cfg.pollInterval →
      ∃ k, wait_for_crawl cfg fuel st = .timeoutErr ((sds k).status) := by
  intro fuel
  induction fuel with
  | zero =>
    intro st j hlast hfuel
    have hnl : loopActive cfg st.now = false := by
      simp only [loopActive, hmax]
      simp only [Nat.zero_mul, Nat.add_zero] at hfuel
      simp [Nat.not_lt.mpr hfuel]
    refine ⟨j, ?_⟩
    simp only [wait_for_crawl]
    rw [if_neg (by simp [hnl])]
    unfold waitExit
    rw [hmax, hlast]
  | succ f ih =>
    intro st j hlast hfuel
    by_cases hnow : st.now < T
    · have hl : loopActive cfg st.now = true := by
        simp [loopActive, hmax, hnow]
      simp only [wait_for_crawl]
      rw [if_pos hl, hpolls st.idx]
      dsimp only
      have hstep : statusStep cfg
          { st with idx := st.idx + 1, consecutiveConnErrors := 0,
                    lastStatusData := some (sds st.idx) } (sds st.idx)
          = .exited
            { st with idx := st.idx + 1, consecutiveConnErrors := 0,
                      lastStatusData := some (sds st.idx),
                      completedWithoutDataCount := 0,
                      now := st.now + cfg.pollInterval } := by
        simp only [statusStep]
        rw [if_neg (hnt st.idx).1, if_neg (hnt st.idx).2]
      rw [hstep]
      dsimp only
      refine ih _ st.idx rfl ?_
      rw [Nat.succ_mul] at hfuel
      dsimp only
      omega
    · have hnl : loopActive cfg st.now = false := by
        simp [loopActive, hmax, hnow]
      refine ⟨j, ?_⟩
      simp only [wait_for_crawl]
      rw [if_neg (by simp [hnl])]
      unfold waitExit
      rw [hmax, hlast]

/-- C2: with max_wait_time = None the poll loop never raises TimeoutError, whatever the
poll sequence, the state and the number of iterations; with a finite max_wait_time T
and a poll sequence of successful non-terminal statuses, once enough iterations fit in
T the call raises TimeoutError naming an observed status — and with a constant status
it names exactly that last observed status. -/
theorem c2_timeout_semantics :
    (∀ (cfg : WaitCfg) (fuel : Nat) (st : WaitState) (s : String),
       cfg.maxWaitTime = none → wait_for_crawl cfg fuel st ≠ .timeoutErr s)
    ∧ (∀ (cfg : WaitCfg) (sds : Nat → StatusData) (T fuel : Nat),
       (∀ i, cfg.polls i = .ok (sds i)) →
       (∀ i, (sds i).status ≠ "completed" ∧ (sds i).status ≠ "failed") →
       cfg.maxWaitTime = some T → 0 < T → T ≤ fuel * cfg.pollInterval →
       ∃ k, wait_for_crawl cfg fuel initWaitState = .timeoutErr ((sds k).status))
    ∧ (∀ (cfg : WaitCfg) (sd : StatusData) (T fuel : Nat),
       (∀ i, cfg.polls i = .ok sd) →
       sd.status ≠ "completed" → sd.status ≠ "failed" →
       cfg.maxWaitTime = some T → 0 < T → T ≤ fuel * cfg.pollInterval →
       wait_for_crawl cfg fuel initWaitState = .timeoutErr sd.status) := by
  have hpartb : ∀ (cfg : WaitCfg) (sds : Nat → StatusData) (T fuel : Nat),
      (∀ i, cfg.polls i = .ok (sds i)) →
      (∀ i, (sds i).status ≠ "completed" ∧ (sds i).status ≠ "failed") →
      cfg.maxWaitTime = some T → 0 < T → T ≤ fuel * cfg.pollInterval →
      ∃ k, wait_for_crawl cfg fuel initWaitState = .timeoutErr ((sds k).status) := by
    intro cfg sds T fuel hpolls hnt hmax hT hfuel
    cases fuel with
    | zero =>
      exfalso
      simp only [Nat.zero_mul] at hfuel
      omega
    | succ f =>
      have hl : loopActive cfg initWaitState.now = true := by
        simp [loopActive, hmax, initWaitState, hT]
      simp only [wait_for_crawl]
      rw [if_pos hl, hpolls initWaitState.idx]
      dsimp only
      have hstep : statusStep cfg
          { initWaitState with idx := initWaitState.idx + 1, consecutiveConnErrors := 0,
                               lastStatusData := some (sds initWaitState.idx) }
          (sds initWaitState.idx)
          = .exited
            { initWaitState with idx := initWaitState.idx + 1,
                                 consecutiveConnErrors := 0,
                                 lastStatusData := some (sds initWaitState.idx),
                                 completedWithoutDataCount := 0,
                                 now := initWaitState.now + cfg.pollInterval } := by
        simp only [statusStep]
        rw [if_neg (hnt initWaitState.idx).1, if_neg (hnt initWaitState.idx).2]
      rw [hstep]
      dsimp only
      refine wait_timeout_aux cfg sds T hpolls hnt hmax f _ initWaitState.idx rfl ?_
      rw [Nat.succ_mul] at hfuel
      simp only [initWaitState]
      omega
  refine ⟨?_, hpartb, ?_⟩
  · intro cfg fuel st s hmax
    exact wait_no_timeout_of_no_deadline cfg hmax fuel st s
  · intro cfg sd T fuel hpolls hs hf hmax hT hfuel
    rcases hpartb cfg (fun _ => sd) T fuel hpolls (fun _ => ⟨hs, hf⟩) hmax hT hfuel with ⟨k, hk⟩
    exact hk

theorem c2_timeout_semantics_witness :
    (wait_for_crawl
        { polls := fun _ => .ok sdScraping, maxWaitTime := none, pollInterval := 5,
          jobId := "j" } 3 initWaitState ≠ .timeoutErr "scraping")
    ∧ wait_for_crawl
        { polls := fun _ => .ok sdScraping, maxWaitTime := some 12, pollInterval := 5,
          jobId := "j" } 3 initWaitState = .timeoutErr "scraping" := by
  constructor
  · exact c2_timeout_semantics.1
      { polls := fun _ => .ok sdScraping, maxWaitTime := none, pollInterval := 5,
        jobId := "j" } 3 initWaitState "scraping" rfl
  · exact c2_timeout_semantics.2.2
      { polls := fun _ => .ok sdScraping, maxWaitTime := some 12, pollInterval := 5,
        jobId := "j" } sdScraping 12 3 (fun _ => rfl) (by decide) (by decide) rfl
      (by decide) (by decide)

/-- C6: a connection error on a poll bumps the consecutive-error counter; at the bound
of five the loop aborts with a ConnectionError whose message states that the job may
still be running on the server; below the bound the loop sleeps twice the poll interval
(strictly longer than the normal interval when it is positive) and retries; a
successful poll makes the run independent of the accumulated counter (it is reset to
zero). -/
theorem c6_consecutive_connection_errors :
    (∀ (cfg : WaitCfg) (st : WaitState) (fuel : Nat),
       loopActive cfg st.now = true →
       cfg.polls st.idx = .connError →
       st.consecutiveConnErrors + 1 ≥ maxConsecutiveConnErrors →
       wait_for_crawl cfg (fuel + 1) st = .connErr (connGiveUpMessage cfg.jobId))
    ∧ (∀ jobId : String, ∃ a b,
       connGiveUpMessage jobId = a ++ "The job may still be running on the server." ++ b)
    ∧ (∀ (cfg : WaitCfg) (st : WaitState) (fuel : Nat),
       loopActive cfg st.now = true →
       cfg.polls st.idx = .connError →
       st.consecutiveConnErrors + 1 < maxConsecutiveConnErrors →
       wait_for_crawl cfg (fuel + 1) st
         = wait_for_crawl cfg fuel
             { st with idx := st.idx + 1, now := st.now + 2 * cfg.pollInterval,
                       consecutiveConnErrors := st.consecutiveConnErrors + 1 })
    ∧ (∀ cfg : WaitCfg, 0 < cfg.pollInterval → cfg.pollInterval < 2 * cfg.pollInterval)
    ∧ (∀ (cfg : WaitCfg) (st : WaitState) (fuel : Nat) (sd : StatusData),
       loopActive cfg st.now = true →
       cfg.polls st.idx = .ok sd →
       wait_for_crawl cfg (fuel + 1) st
         = wait_for_crawl cfg (fuel + 1) { st with consecutiveConnErrors := 0 }) := by
  refine ⟨?_, ?_, ?_, ?_, ?_⟩
  · intro cfg st fuel hl hp hge
    simp only [wait_for_crawl]
    rw [if_pos hl, hp]
    dsimp only
    rw [if_pos hge]
  · intro jobId
    refine ⟨"Crawl job " ++ jobId ++ " failed due to persistent connection issues.\n  ",
      "\n  You can check status later.", ?_⟩
    apply String.ext
    simp [connGiveUpMessage, String.data_append]
  · intro cfg st fuel hl hp hlt
    simp only [wait_for_crawl]
    rw [if_pos hl, hp]
    dsimp only
    rw [if_neg (Nat.not_le.mpr hlt)]
  · intro cfg hpos
    omega
  · intro cfg st fuel sd hl hp
    simp only [wait_for_crawl]
    rw [if_pos hl, if_pos hl, hp]

theorem c6_consecutive_connection_errors_witness :
    (wait_for_crawl
        { polls := fun _ => .connError, maxWaitTime := none, pollInterval := 5,
          jobId := "j" } 3
        { idx := 0, now := 0, completedWithoutDataCount := 0,
          consecutiveConnErrors := 4, lastStatusData := none }
      = .connErr (connGiveUpMessage "j"))
    ∧ (∃ a b, connGiveUpMessage "j"
        = a ++ "The job may still be running on the server." ++ b)
    ∧ wait_for_crawl
        { polls := fun _ => .connError, maxWaitTime := none, pollInterval := 5,
          jobId := "j" } 3
        { idx := 0, now := 0, completedWithoutDataCount := 0,
          consecutiveConnErrors := 0, lastStatusData := none }
      = wait_for_crawl
          { polls := fun _ => .connError, maxWaitTime := none, pollInterval := 5,
            jobId := "j" } 2
          { idx := 1, now := 10, completedWithoutDataCount := 0,
            consecutiveConnErrors := 1, lastStatusData := none } := by
  refine ⟨?_, c6_consecutive_connection_errors.2.1 "j", ?_⟩
  · exact c6_consecutive_connection_errors.1
      { polls := fun _ => .connError, maxWaitTime := none, pollInterval := 5,
        jobId := "j" }
      { idx := 0, now := 0, completedWithoutDataCount := 0,
        consecutiveConnErrors := 4, lastStatusData := none }
      2 rfl rfl (by decide)
  · exact c6_consecutive_connection_errors.2.2.1
      { polls := fun _ => .connError, maxWaitTime := none, pollInterval := 5,
        jobId := "j" }
      { idx := 0, now := 0, completedWithoutDataCount := 0,
        consecutiveConnErrors := 0, lastStatusData := none }
      2 rfl rfl (by decide)

/-- C1: with default polling (interval 5, no deadline), a poll sequence whose statuses
are all completed with an empty data array makes wait_for_crawl stop after the third
completed-but-empty occurrence across outer iterations (poll 0, then the 60s sub-wait
polls 1-12 and the final check poll 13 of the first occurrence, then outer polls 14 and
15) and return the empty payload of the last poll; and if data appears on the first
sub-wait poll during the bounded sub-wait, that payload is returned immediately. -/
theorem c1_completed_empty_bound :
    (∀ sds : Nat → StatusData,
       (∀ i, (sds i).status = "completed") →
       (∀ i, (sds i).data = []) →
       wait_for_crawl
         { polls := fun i => .ok (sds i), maxWaitTime := none, pollInterval := 5,
           jobId := "j" } 20 initWaitState = .success (sds 15)
       ∧ (sds 15).data = [])
    ∧ (∀ sds : Nat → StatusData,
       (sds 0).status = "completed" → (sds 0).data = [] → (sds 1).data ≠ [] →
       wait_for_crawl
         { polls := fun i => .ok (sds i), maxWaitTime := none, pollInterval := 5,
           jobId := "j" } 20 initWaitState = .success (sds 1)) := by
  constructor
  · intro sds hst hdata
    refine ⟨?_, hdata 15⟩
    set_option maxHeartbeats 2000000 in
    simp [wait_for_crawl, statusStep, subwait, subwaitLoop, loopActive, waitExit,
      initWaitState, maxCompletedWithoutData, maxConsecutiveConnErrors, hst, hdata]
  · intro sds h0 h0d h1d
    set_option maxHeartbeats 2000000 in
    simp [wait_for_crawl, statusStep, subwait, subwaitLoop, loopActive, waitExit,
      initWaitState, maxCompletedWithoutData, maxConsecutiveConnErrors, h0, h0d, h1d]

theorem c1_completed_empty_bound_witness :
    (wait_for_crawl
        { polls := fun i => .ok ((fun _ => sdCompletedEmpty) i), maxWaitTime := none,
          pollInterval := 5, jobId := "j" } 20 initWaitState
      = .success sdCompletedEmpty)
    ∧ wait_for_crawl
        { polls := fun i => .ok ((fun i => if i = 0 then sdCompletedEmpty
                                           else sdCompletedOne) i),
          maxWaitTime := none, pollInterval := 5, jobId := "j" } 20 initWaitState
      = .success sdCompletedOne := by
  constructor
  · exact (c1_completed_empty_bound.1 (fun _ => sdCompletedEmpty)
      (fun _ => rfl) (fun _ => rfl)).1
  · exact c1_completed_empty_bound.2
      (fun i => if i = 0 then sdCompletedEmpty else sdCompletedOne)
      rfl rfl (by decide)

end Firecrawl
